import Mathlib

/-!
# Bucket filtering and scrape-target synthesis of the MinIO service-discovery server

A shallow embedding of `main.go`: the wildcard matcher `matchPattern`, the
include/exclude filter `filterBuckets`, the scrape-config generator
`GenerateScrapeConfigs`, the `/sd` handler `handleServiceDiscovery` and the
configuration loader `loadConfig` with its helpers, together with the parts of
the Go standard library they call (`strings.ReplaceAll`, `regexp.MatchString`,
`time.Time.Format`, `strconv.ParseBool`, `os.Getenv`, `errors.Unwrap`).

Conventions of the embedding:

* a Go `string` holding valid UTF-8 is the list of its runes (`GoString`);
* a Go slice is a `List` (a `nil` slice and an empty slice are both `[]`);
* a Go `map[string]string` literal is an association list in source order;
* the regular-expression engine is an argument of `matchPattern` and of every
  function that calls it, so that the general theorems hold for any engine;
  `regexp.MatchString` below is a model of Go's engine on a fragment of its
  syntax, used where the behaviour of the engine itself matters;
* the MinIO server is the sequence of answers it gives to successive
  `ListBuckets` calls, and a call counter is threaded through the handlers;
* logging is omitted.
-/

/-- A Go `string` that holds valid UTF-8, as the list of its runes. -/
abbrev GoString := List Char

/-! ## `strings.ReplaceAll` -/

namespace strings

/-- The scanning loop of `ReplaceAll` for a non-empty `old`: `skip` is the
number of runes of the occurrence just replaced that are still to be dropped. -/
def replaceFrom (old new : GoString) : Nat → GoString → GoString
  | _, [] => []
  | skip + 1, _ :: t => replaceFrom old new skip t
  | 0, c :: t =>
    if old.isPrefixOf (c :: t) then new ++ replaceFrom old new (old.length - 1) t
    else c :: replaceFrom old new 0 t

/-- Go's `strings.ReplaceAll(s, old, new)`: every non-overlapping occurrence of
`old`, scanning from the left, is replaced by `new`; an empty `old` matches
before every rune and at the end. -/
def ReplaceAll (s old new : GoString) : GoString :=
  match old with
  | [] => new ++ s.flatMap (fun c => c :: new)
  | _ :: _ => replaceFrom old new 0 s

end strings

/-! ## A model of Go's `regexp` package

`regexp.MatchString(pattern, s)` compiles `pattern` with the Perl flags
(`ClassNL | OneLine | PerlX | UnicodeGroups`) and reports whether some substring
of `s` matches.  The model follows the stack parser of `regexp/syntax`
(`parse`, `concat`, `alternate`, `swapVerticalBar`, `parseRightParen`, `repeat`,
`parseClass`, `parseEscape`) on this fragment: literals, `.`, `^`, `$`, `|`,
capturing groups, `*`, `+`, `?` (also non-greedy), bracket classes of single
runes and ranges, `\A`, `\z`, `\d \D \s \S \w \W`, escaped punctuation and the
C escapes `\a \f \n \r \t \v`.  Constructs outside the fragment (`(?...)`,
counted repetition, POSIX and Unicode classes, `\b \B \Q \x`, octal escapes)
are reported as `Error.unsupported`; resource limits are not modelled. -/

namespace regexp

/-- The parse errors of `regexp/syntax` that the fragment can raise. -/
inductive Error where
  | missingParen
  | unexpectedParen
  | missingBracket
  | missingRepeatArgument
  | invalidRepeatOp
  | trailingBackslash
  | invalidEscape
  | invalidCharRange
  | unsupported
  deriving DecidableEq, Repr

/-- The syntax tree `syntax.Regexp`, with binary `concat` and `alternate`; the
last two constructors are the parser's pseudo-operators `opLeftParen` and
`opVerticalBar`, which live on the parse stack only. -/
inductive Regexp where
  | noMatch
  | emptyMatch
  | literal (c : Char)
  | charClass (negated : Bool) (ranges : List (Char × Char))
  | anyCharNotNL
  | beginText
  | endText
  | capture (sub : Regexp)
  | star (sub : Regexp)
  | plus (sub : Regexp)
  | quest (sub : Regexp)
  | concat (a b : Regexp)
  | alternate (a b : Regexp)
  | leftParen
  | verticalBar
  deriving DecidableEq, Repr

/-- The test `re.Op >= opPseudo`. -/
def Regexp.isPseudo : Regexp → Bool
  | .leftParen => true
  | .verticalBar => true
  | _ => false

/-- The operators of `repeat`. -/
inductive RepeatOp where
  | star
  | plus
  | quest
  deriving DecidableEq, Repr

/-- The node `repeat` builds over its operand. -/
def RepeatOp.apply : RepeatOp → Regexp → Regexp
  | .star, sub => .star sub
  | .plus, sub => .plus sub
  | .quest, sub => .quest sub

/-- The operands above the topmost pseudo-operator, moved to `acc` in source
order, and the rest of the stack (the top of the stack is the head). -/
def popOperands : List Regexp → List Regexp → List Regexp × List Regexp
  | acc, [] => (acc, [])
  | acc, re :: stack =>
    if re.isPseudo then (acc, re :: stack) else popOperands (re :: acc) stack

/-- The function `collapse(subs, OpConcat)` on a non-empty operand list. -/
def collapseConcat : List Regexp → Regexp
  | [] => .emptyMatch
  | [re] => re
  | re :: subs => .concat re (collapseConcat subs)

/-- The function `collapse(subs, OpAlternate)` on a non-empty operand list. -/
def collapseAlternate : List Regexp → Regexp
  | [] => .noMatch
  | [re] => re
  | re :: subs => .alternate re (collapseAlternate subs)

/-- The method `parser.concat`: replace the operands above the topmost
pseudo-operator by their concatenation (the empty match if there are none). -/
def concat (stack : List Regexp) : List Regexp :=
  let (subs, below) := popOperands [] stack
  collapseConcat subs :: below

/-- The method `parser.alternate`: replace the operands above the topmost
pseudo-operator by their alternation. -/
def alternate (stack : List Regexp) : List Regexp :=
  let (subs, below) := popOperands [] stack
  collapseAlternate subs :: below

/-- The method `parser.swapVerticalBar`: when a vertical bar lies right below
the top of the stack the two are swapped; the Boolean reports the swap. -/
def swapVerticalBar : List Regexp → List Regexp × Bool
  | re1 :: .verticalBar :: stack => (.verticalBar :: re1 :: stack, true)
  | stack => (stack, false)

/-- The method `parser.parseVerticalBar`. -/
def parseVerticalBar (stack : List Regexp) : List Regexp :=
  match swapVerticalBar (concat stack) with
  | (stack, true) => stack
  | (stack, false) => .verticalBar :: stack

/-- The closing sequence shared by `parseRightParen` and the end of `parse`:
`concat`, drop a vertical bar swapped to the top, `alternate`. -/
def closeGroup (stack : List Regexp) : List Regexp :=
  match swapVerticalBar (concat stack) with
  | (stack, true) => alternate stack.tail
  | (stack, false) => alternate stack

/-- The method `parser.parseRightParen`. -/
def parseRightParen (stack : List Regexp) : Except Error (List Regexp) :=
  match closeGroup stack with
  | re1 :: .leftParen :: stack => .ok (.capture re1 :: stack)
  | _ => .error .unexpectedParen

/-- The method `parser.repeat` for `*`, `+` and `?`; `after` is the input behind
the operator.  A following `?` (non-greedy) is consumed, a repetition right
after a repetition is refused, and so is one without an operand. -/
def applyRepeat (op : RepeatOp) (stack : List Regexp) (lastRepeat : Bool) (after : GoString) :
    Except Error (List Regexp × GoString) :=
  let after := match after with
    | [] => after
    | c :: rest => if c = '?' then rest else after
  if lastRepeat then .error .invalidRepeatOp
  else match stack with
    | [] => .error .missingRepeatArgument
    | sub :: stack =>
      if sub.isPseudo then .error .missingRepeatArgument
      else .ok (op.apply sub :: stack, after)

/-- The test `isalnum` of `regexp/syntax`. -/
def isalnum (c : Char) : Bool :=
  ('0'.toNat ≤ c.toNat && c.toNat ≤ '9'.toNat) ||
  ('A'.toNat ≤ c.toNat && c.toNat ≤ 'Z'.toNat) ||
  ('a'.toNat ≤ c.toNat && c.toNat ≤ 'z'.toNat)

/-- The method `parser.parseEscape`; `t` is the input behind the backslash. -/
def parseEscape (t : GoString) : Except Error (Char × GoString) :=
  match t with
  | [] => .error .trailingBackslash
  | c :: t =>
    if c.toNat < 128 && !isalnum c then .ok (c, t)
    else if c = 'a' then .ok (Char.ofNat 7, t)
    else if c = 'f' then .ok (Char.ofNat 12, t)
    else if c = 'n' then .ok (Char.ofNat 10, t)
    else if c = 'r' then .ok (Char.ofNat 13, t)
    else if c = 't' then .ok (Char.ofNat 9, t)
    else if c = 'v' then .ok (Char.ofNat 11, t)
    else if c = 'x' ∨ ('0'.toNat ≤ c.toNat ∧ c.toNat ≤ '7'.toNat) then .error .unsupported
    else .error .invalidEscape

/-- The ranges of the Perl classes `\d`, `\s` and `\w` (table `perlGroup`). -/
def perlClass (c : Char) : Option (Bool × List (Char × Char)) :=
  if c = 'd' then some (false, [('0', '9')])
  else if c = 'D' then some (true, [('0', '9')])
  else if c = 's' then
    some (false, [(Char.ofNat 9, Char.ofNat 10), (Char.ofNat 12, Char.ofNat 13), (' ', ' ')])
  else if c = 'S' then
    some (true, [(Char.ofNat 9, Char.ofNat 10), (Char.ofNat 12, Char.ofNat 13), (' ', ' ')])
  else if c = 'w' then some (false, [('0', '9'), ('A', 'Z'), ('_', '_'), ('a', 'z')])
  else if c = 'W' then some (true, [('0', '9'), ('A', 'Z'), ('_', '_'), ('a', 'z')])
  else none

/-- The method `parser.parseClassChar`. -/
def parseClassChar (t : GoString) : Except Error (Char × GoString) :=
  match t with
  | [] => .error .missingBracket
  | c :: t => if c = '\\' then parseEscape t else .ok (c, t)

/-- The loop of `parser.parseClass` over the items of a bracket class: `first`
tells that no item has been read yet (a `]` is then an ordinary rune).  Every
round consumes input, so `fuel` is the length of the input. -/
def parseClassItems : Nat → Bool → List (Char × Char) → GoString →
    Except Error (List (Char × Char) × GoString)
  | 0, _, _, _ => .error .missingBracket
  | fuel + 1, first, cls, t =>
    match t, first with
    | ']' :: rest, false => .ok (cls, rest)
    | _, _ =>
      match t with
      | '[' :: ':' :: _ => .error .unsupported
      | '\\' :: 'p' :: _ => .error .unsupported
      | '\\' :: 'P' :: _ => .error .unsupported
      | _ =>
        if (match t with
            | '\\' :: c :: _ => (perlClass c).isSome
            | _ => false) then .error .unsupported
        else
          match parseClassChar t with
          | .error e => .error e
          | .ok (lo, t) =>
            match t with
            | '-' :: c :: rest =>
              if c = ']' then parseClassItems fuel false (cls ++ [(lo, lo)]) t
              else
                match parseClassChar (c :: rest) with
                | .error e => .error e
                | .ok (hi, t) =>
                  if hi.toNat < lo.toNat then .error .invalidCharRange
                  else parseClassItems fuel false (cls ++ [(lo, hi)]) t
            | _ => parseClassItems fuel false (cls ++ [(lo, lo)]) t

/-- The method `parser.parseClass`; `t` is the input behind the `[`. -/
def parseClass (t : GoString) : Except Error (Regexp × GoString) :=
  let (negated, t) := match t with
    | '^' :: rest => (true, rest)
    | _ => (false, t)
  match parseClassItems (t.length + 1) true [] t with
  | .error e => .error e
  | .ok (cls, rest) => .ok (.charClass negated cls, rest)

/-- One round of the loop of `parse`: the switch on the first rune `c` of the
input, `rest` being the input behind it.  The result is the new stack, the new
value of `lastRepeat` and the remaining input. -/
def parseStep (stack : List Regexp) (lastRepeat : Bool) (c : Char) (rest : GoString) :
    Except Error (List Regexp × Bool × GoString) :=
  if c = '(' then
    match rest with
    | '?' :: _ => .error .unsupported
    | _ => .ok (.leftParen :: stack, false, rest)
  else if c = '|' then .ok (parseVerticalBar stack, false, rest)
  else if c = ')' then
    match parseRightParen stack with
    | .error e => .error e
    | .ok stack => .ok (stack, false, rest)
  else if c = '^' then .ok (.beginText :: stack, false, rest)
  else if c = '$' then .ok (.endText :: stack, false, rest)
  else if c = '.' then .ok (.anyCharNotNL :: stack, false, rest)
  else if c = '[' then
    match parseClass rest with
    | .error e => .error e
    | .ok (re, rest) => .ok (re :: stack, false, rest)
  else if c = '*' ∨ c = '+' ∨ c = '?' then
    let op := if c = '*' then RepeatOp.star else if c = '+' then RepeatOp.plus else RepeatOp.quest
    match applyRepeat op stack lastRepeat rest with
    | .error e => .error e
    | .ok (stack, after) => .ok (stack, true, after)
  else if c = '{' then
    match rest with
    | [] => .ok (.literal '{' :: stack, false, rest)
    | d :: _ =>
      if '0'.toNat ≤ d.toNat ∧ d.toNat ≤ '9'.toNat then .error .unsupported
      else .ok (.literal '{' :: stack, false, rest)
  else if c = '\\' then
    match rest with
    | [] => .error .trailingBackslash
    | d :: rest2 =>
      if d = 'A' then .ok (.beginText :: stack, false, rest2)
      else if d = 'z' then .ok (.endText :: stack, false, rest2)
      else if d = 'C' then .error .invalidEscape
      else if d = 'b' ∨ d = 'B' ∨ d = 'Q' ∨ d = 'p' ∨ d = 'P' then .error .unsupported
      else
        match perlClass d with
        | some (negated, cls) => .ok (.charClass negated cls :: stack, false, rest2)
        | none =>
          match parseEscape rest with
          | .error e => .error e
          | .ok (r, rest) => .ok (.literal r :: stack, false, rest)
  else .ok (.literal c :: stack, false, rest)

/-- The loop `for t != ""` of `parse`.  Every round consumes input, so the
length of the input is enough `fuel`. -/
def parseLoop : Nat → List Regexp → Bool → GoString → Except Error (List Regexp)
  | _, stack, _, [] => .ok stack
  | 0, _, _, _ :: _ => .error .unsupported
  | fuel + 1, stack, lastRepeat, c :: rest =>
    match parseStep stack lastRepeat c rest with
    | .error e => .error e
    | .ok (stack, lastRepeat, t) => parseLoop fuel stack lastRepeat t

/-- The function `syntax.Parse(s, syntax.Perl)`. -/
def Parse (s : GoString) : Except Error Regexp :=
  match parseLoop s.length [] false s with
  | .error e => .error e
  | .ok stack =>
    match closeGroup stack with
    | [re] => .ok re
    | _ => .error .missingParen

/-- A position of the matcher in the text: whether it is the beginning of the
text, and the text that remains. -/
structure Pos where
  atStart : Bool
  rest : GoString
  deriving DecidableEq, Repr

/-- Consume one rune satisfying `p`. -/
def stepRune (p : Char → Bool) : Pos → List Pos
  | ⟨_, c :: rest⟩ => if p c then [⟨false, rest⟩] else []
  | ⟨_, []⟩ => []

/-- Membership of a rune in a list of closed ranges. -/
def inRanges (ranges : List (Char × Char)) (c : Char) : Bool :=
  ranges.any (fun r => r.1.toNat ≤ c.toNat && c.toNat ≤ r.2.toNat)

/-- The positions reached by zero or more rounds of `f`; a round that consumes
nothing reaches nothing new, so at most `fuel` rounds are run, `fuel` being the
length of the remaining text. -/
def starLoop (f : Pos → List Pos) : Nat → Pos → List Pos
  | 0, p => [p]
  | fuel + 1, p =>
    p :: ((f p).filter (fun q => q.rest.length < p.rest.length)).flatMap (starLoop f fuel)

/-- The positions at which a match of `re` that starts at `p` can end. -/
def Regexp.run : Regexp → Pos → List Pos
  | .noMatch, _ => []
  | .emptyMatch, p => [p]
  | .literal c, p => stepRune (fun d => d = c) p
  | .charClass negated ranges, p => stepRune (fun d => inRanges ranges d != negated) p
  | .anyCharNotNL, p => stepRune (fun d => d ≠ Char.ofNat 10) p
  | .beginText, p => if p.atStart then [p] else []
  | .endText, p => if p.rest.isEmpty then [p] else []
  | .capture sub, p => sub.run p
  | .star sub, p => starLoop sub.run p.rest.length p
  | .plus sub, p => (sub.run p).flatMap (fun q => starLoop sub.run q.rest.length q)
  | .quest sub, p => p :: sub.run p
  | .concat a b, p => (a.run p).flatMap b.run
  | .alternate a b, p => a.run p ++ b.run p
  | .leftParen, _ => []
  | .verticalBar, _ => []

/-- Whether `re` matches some substring of the text that starts at the current
position or later (the unanchored search of `Regexp.MatchString`). -/
def Regexp.search (re : Regexp) : Bool → GoString → Bool
  | atStart, [] => !(re.run ⟨atStart, []⟩).isEmpty
  | atStart, c :: rest => !(re.run ⟨atStart, c :: rest⟩).isEmpty || re.search false rest

/-- The method `(*Regexp).MatchString`. -/
def Regexp.MatchString (re : Regexp) (s : GoString) : Bool :=
  re.search true s

/-- The function `regexp.Compile`, up to the translation into a program. -/
def Compile (expr : GoString) : Except Error Regexp :=
  Parse expr

/-- The function `regexp.MatchString(pattern, s)`. -/
def MatchString (pattern s : GoString) : Except Error Bool :=
  match Compile pattern with
  | .error e => .error e
  | .ok re => .ok (re.MatchString s)

end regexp

/-! ## `time.Time` and its RFC 3339 rendering -/

namespace time

/-- A `time.Time` by its civil fields in its own location: the date, the clock
and the zone offset in seconds east of UTC, which is all that `Format` reads. -/
structure Time where
  year : Nat
  month : Nat
  day : Nat
  hour : Nat
  minute : Nat
  second : Nat
  offset : Int
  deriving DecidableEq, Repr

/-- The decimal digit of `d % 10`. -/
def digit (d : Nat) : Char :=
  Char.ofNat (48 + d % 10)

/-- The decimal digits of `x` in front of `acc`. -/
def utoa : Nat → Nat → GoString → GoString
  | 0, _, acc => acc
  | fuel + 1, x, acc =>
    if x < 10 then digit x :: acc else utoa fuel (x / 10) (digit x :: acc)

/-- The function `appendInt` of package `time` for a non-negative `x`: its
decimal digits, zero-padded on the left to `width`. -/
def appendInt (x width : Nat) : GoString :=
  let ds := utoa (x + 1) x []
  List.replicate (width - ds.length) '0' ++ ds

/-- The zone element `Z07:00` of a layout: `Z` for a zero offset, else the
offset in minutes (`offset / 60`, truncated towards zero) as a sign, two digits
of hours, a colon and two digits of minutes. -/
def formatZone (offset : Int) : GoString :=
  if offset = 0 then ['Z']
  else
    let zone := Int.tdiv offset 60
    (if zone < 0 then '-' else '+') ::
      (appendInt (zone.natAbs / 60) 2 ++ ':' :: appendInt (zone.natAbs % 60) 2)

/-- The call `t.Format(time.RFC3339)`, layout `2006-01-02T15:04:05Z07:00`. -/
def Time.FormatRFC3339 (t : Time) : GoString :=
  appendInt t.year 4 ++ '-' :: appendInt t.month 2 ++ '-' :: appendInt t.day 2 ++
  'T' :: appendInt t.hour 2 ++ ':' :: appendInt t.minute 2 ++ ':' :: appendInt t.second 2 ++
  formatZone t.offset

end time

/-! ## The data model of `main.go` -/

/-- A Go `error`: a message, possibly wrapping another error (`%w`). -/
inductive GoError where
  | New (text : GoString)
  | Wrap (text : GoString) (err : GoError)
  deriving DecidableEq, Repr

/-- The method `Error()` of an error. -/
def GoError.Error : GoError → GoString
  | .New text => text
  | .Wrap text err => text ++ err.Error

namespace minio

/-- The fields of `minio.BucketInfo` that the program reads. -/
structure BucketInfo where
  Name : GoString
  CreationDate : time.Time
  deriving DecidableEq, Repr

end minio

/-- A Go `map[string]string`, as the list of its entries. -/
abbrev Labels := List (GoString × GoString)

/-- The struct `StaticConfig`. -/
structure StaticConfig where
  Targets : List GoString
  Labels : Labels
  deriving DecidableEq, Repr

/-- The struct `RelabelConfig`. -/
structure RelabelConfig where
  SourceLabels : List GoString
  TargetLabel : GoString
  Regex : GoString
  Replacement : GoString
  deriving DecidableEq, Repr

/-- The struct `ScrapeConfig`. -/
structure ScrapeConfig where
  JobName : GoString
  StaticConfigs : List StaticConfig
  MetricsPath : GoString
  ScrapeInterval : GoString
  ScrapeTimeout : GoString
  Scheme : GoString
  RelabelConfigs : List RelabelConfig
  deriving DecidableEq, Repr

/-- The struct `ServiceDiscoveryResponse`. -/
structure ServiceDiscoveryResponse where
  Targets : List GoString
  Labels : Labels
  deriving DecidableEq, Repr

/-- The struct `Config`; `ScrapeInterval` is a `time.Duration` in nanoseconds. -/
structure Config where
  MinIOEndpoint : GoString
  MinIOAccessKey : GoString
  MinIOSecretKey : GoString
  MinIOUseSSL : Bool
  ListenAddr : GoString
  ScrapeInterval : Int
  MetricsPath : GoString
  BucketPattern : GoString
  BucketExcludePattern : GoString
  DefaultScrapeConfig : ScrapeConfig

/-- The struct `MinIOClient`: `client` is the MinIO server seen through
`minio.Client`, the answer it gives to the `n`-th `ListBuckets` call. -/
structure MinIOClient where
  client : Nat → Except GoError (List minio.BucketInfo)
  config : Config

/-- What a handler writes: `http.Error(w, body, code)`, or a `200` whose body is
the JSON encoding of a list of discovery entries. -/
inductive Response where
  | httpError (body : GoString) (code : Nat)
  | json (body : List ServiceDiscoveryResponse)
  deriving DecidableEq, Repr

/-- The type of `regexp.MatchString`, with the errors of the engine in `ε`. -/
abbrev Matcher (ε : Type) := GoString → GoString → Except ε Bool

/-! ## The functions of `main.go` -/

/-- The method `ListBuckets`: the `n`-th listing of the server, a failure being
wrapped by `fmt.Errorf("failed to list buckets: %w", err)`. -/
def MinIOClient.ListBuckets (m : MinIOClient) (n : Nat) :
    Except GoError (List minio.BucketInfo) × Nat :=
  match m.client n with
  | .error err => (.error (.Wrap "failed to list buckets: ".toList err), n + 1)
  | .ok buckets => (.ok buckets, n + 1)

/-- The method `getScheme`. -/
def MinIOClient.getScheme (m : MinIOClient) : GoString :=
  if m.config.MinIOUseSSL then "https".toList else "http".toList

/-- The value of the local variable `serverConfig` of `GenerateScrapeConfigs`:
the scrape configuration of the job `minio-server`. -/
def MinIOClient.serverConfig (m : MinIOClient) : ScrapeConfig :=
  { m.config.DefaultScrapeConfig with
    JobName := "minio-server".toList
    StaticConfigs := [
      { Targets := [m.config.MinIOEndpoint]
        Labels := [
          ("__metrics_path__".toList, "/minio/metrics/v3".toList),
          ("__scheme__".toList, m.getScheme),
          ("instance".toList, m.config.MinIOEndpoint),
          ("job".toList, "minio-server".toList)] }] }

/-- The value of the local variable `bucketConfig` of `GenerateScrapeConfigs`:
the scrape configuration of the job `minio-buckets`. -/
def MinIOClient.bucketConfig (m : MinIOClient) : ScrapeConfig :=
  { m.config.DefaultScrapeConfig with
    JobName := "minio-buckets".toList
    StaticConfigs := [
      { Targets := [m.config.MinIOEndpoint]
        Labels := [
          ("__metrics_path__".toList, "/minio/metrics/v3/bucket/api".toList),
          ("__scheme__".toList, m.getScheme),
          ("instance".toList, m.config.MinIOEndpoint),
          ("job".toList, "minio-buckets".toList),
          ("bucket_pattern".toList, "*".toList)] }] }

/-- The method `GenerateScrapeConfigs`. -/
def MinIOClient.GenerateScrapeConfigs (m : MinIOClient) (n : Nat) :
    Except GoError (List ScrapeConfig) × Nat :=
  match m.ListBuckets n with
  | (.error err, n) => (.error err, n)
  | (.ok buckets, n) =>
    let configs := [m.serverConfig]
    if buckets.length > 0 then (.ok (configs ++ [m.bucketConfig]), n)
    else (.ok configs, n)

/-- The regular expression `matchPattern` builds from a wildcard pattern:
`"^" + ReplaceAll(pattern, "*", ".*") + "$"`, then every `?` replaced by `.`. -/
def regexPattern (pattern : GoString) : GoString :=
  strings.ReplaceAll
    ("^".toList ++ strings.ReplaceAll pattern "*".toList ".*".toList ++ "$".toList)
    "?".toList ".".toList

/-- The function `matchPattern`, over the engine `MatchString`. -/
def matchPattern {ε : Type} (MatchString : Matcher ε) (str pattern : GoString) : Bool :=
  if pattern = "*".toList ∨ pattern = "".toList then true
  else
    match MatchString (regexPattern pattern) str with
    | .error _ => false
    | .ok matched => matched

/-- The loop of `filterBuckets` (from `var filtered` to `return filtered`). -/
def filterLoop {ε : Type} (MatchString : Matcher ε) (m : MinIOClient) :
    List minio.BucketInfo → List minio.BucketInfo
  | [] => []
  | bucket :: buckets =>
    if !matchPattern MatchString bucket.Name m.config.BucketPattern then
      filterLoop MatchString m buckets
    else if m.config.BucketExcludePattern ≠ "".toList ∧
        matchPattern MatchString bucket.Name m.config.BucketExcludePattern then
      filterLoop MatchString m buckets
    else bucket :: filterLoop MatchString m buckets

/-- The method `filterBuckets`. -/
def MinIOClient.filterBuckets {ε : Type} (MatchString : Matcher ε) (m : MinIOClient)
    (buckets : List minio.BucketInfo) : List minio.BucketInfo :=
  if m.config.BucketPattern = "*".toList ∧ m.config.BucketExcludePattern = "".toList then buckets
  else filterLoop MatchString m buckets

/-- The entry `handleServiceDiscovery` appends to its response for one bucket
of the job `minio-buckets`. -/
def MinIOClient.bucketTarget (m : MinIOClient) (bucket : minio.BucketInfo) :
    ServiceDiscoveryResponse :=
  { Targets := [m.config.MinIOEndpoint]
    Labels := [
      ("__metrics_path__".toList, "/minio/metrics/v3/bucket/api/".toList ++ bucket.Name),
      ("__scheme__".toList, m.getScheme),
      ("instance".toList, m.config.MinIOEndpoint),
      ("job".toList, "minio-buckets".toList),
      ("sd_bucket".toList, bucket.Name),
      ("sd_bucket_creation".toList, bucket.CreationDate.FormatRFC3339)] }

/-- The method `handleServiceDiscovery`: `jobName` is the query parameter `job`
of the request (empty when absent), `n` the number of listings made so far. -/
def MinIOClient.handleServiceDiscovery {ε : Type} (MatchString : Matcher ε) (m : MinIOClient)
    (jobName : GoString) (n : Nat) : Response × Nat :=
  if jobName = "".toList then (.httpError "job parameter is required".toList 400, n)
  else
    match m.GenerateScrapeConfigs n with
    | (.error _, n) => (.httpError "Internal server error".toList 500, n)
    | (.ok configs, n) =>
      match configs.find? (fun config => config.JobName = jobName) with
      | none => (.httpError "Job not found".toList 404, n)
      | some targetConfig =>
        if jobName = "minio-buckets".toList then
          match m.ListBuckets n with
          | (.error _, n) => (.httpError "Internal server error".toList 500, n)
          | (.ok buckets, n) =>
            let filteredBuckets := m.filterBuckets MatchString buckets
            (.json (filteredBuckets.map m.bucketTarget), n)
        else
          (.json (targetConfig.StaticConfigs.flatMap (fun staticConfig =>
            staticConfig.Targets.map (fun target =>
              { Targets := [target], Labels := staticConfig.Labels }))), n)

/-! ## Configuration loading -/

namespace strconv

/-- The function `strconv.ParseBool`. -/
def ParseBool (str : GoString) : Except GoError Bool :=
  if str ∈ ["1".toList, "t".toList, "T".toList, "true".toList, "TRUE".toList, "True".toList] then
    .ok true
  else if str ∈
      ["0".toList, "f".toList, "F".toList, "false".toList, "FALSE".toList, "False".toList] then
    .ok false
  else .error (.New ("strconv.ParseBool: parsing ".toList ++ str ++ ": invalid syntax".toList))

end strconv

/-- The function `getEnv`; `Getenv` is `os.Getenv`, which gives `""` for a
variable that is not set. -/
def getEnv (Getenv : GoString → GoString) (key defaultValue : GoString) : GoString :=
  if Getenv key ≠ "".toList then Getenv key else defaultValue

/-- The function `getEnvAsBool`. -/
def getEnvAsBool (Getenv : GoString → GoString) (key : GoString) (defaultValue : Bool) : Bool :=
  if Getenv key ≠ "".toList then
    match strconv.ParseBool (Getenv key) with
    | .ok boolValue => boolValue
    | .error _ => defaultValue
  else defaultValue

/-- The function `getEnvAsDuration`, over `time.ParseDuration`. -/
def getEnvAsDuration (ParseDuration : GoString → Except GoError Int)
    (Getenv : GoString → GoString) (key : GoString) (defaultValue : Int) : Int :=
  if Getenv key ≠ "".toList then
    match ParseDuration (Getenv key) with
    | .ok duration => duration
    | .error _ => defaultValue
  else defaultValue

/-- The values of the command-line flags after `flag.Parse()`. -/
structure Flags where
  help : Bool
  minioEndpoint : GoString
  minioAccessKey : GoString
  minioSecretKey : GoString
  minioUseSSL : Bool
  listenAddr : GoString
  scrapeInterval : GoString
  metricsPath : GoString
  bucketPattern : GoString
  bucketExcludePattern : GoString

/-- The flag values when no flag is given on the command line. -/
def Flags.unset : Flags :=
  { help := false
    minioEndpoint := []
    minioAccessKey := []
    minioSecretKey := []
    minioUseSSL := false
    listenAddr := []
    scrapeInterval := []
    metricsPath := []
    bucketPattern := []
    bucketExcludePattern := [] }

/-- The function `loadConfig`, from the parsed flags and the environment; the
result is `none` when `-help` makes the program print its usage and exit. -/
def loadConfig (ParseDuration : GoString → Except GoError Int) (flags : Flags)
    (Getenv : GoString → GoString) : Option Config :=
  if flags.help then none
  else
    let getValue := fun (cmdValue envKey defaultValue : GoString) =>
      if cmdValue ≠ "".toList then cmdValue else getEnv Getenv envKey defaultValue
    let getBoolValue := fun (cmdValue : Bool) (envKey : GoString) (defaultValue : Bool) =>
      if cmdValue ≠ defaultValue then cmdValue else getEnvAsBool Getenv envKey defaultValue
    let getDurationValue := fun (cmdValue envKey : GoString) (defaultValue : Int) =>
      if cmdValue ≠ "".toList then
        match ParseDuration cmdValue with
        | .ok duration => duration
        | .error _ => getEnvAsDuration ParseDuration Getenv envKey defaultValue
      else getEnvAsDuration ParseDuration Getenv envKey defaultValue
    let config : Config :=
      { MinIOEndpoint := getValue flags.minioEndpoint "MINIO_ENDPOINT".toList "localhost:9000".toList
        MinIOAccessKey := getValue flags.minioAccessKey "MINIO_ACCESS_KEY".toList "minioadmin".toList
        MinIOSecretKey := getValue flags.minioSecretKey "MINIO_SECRET_KEY".toList "minioadmin".toList
        MinIOUseSSL := getBoolValue flags.minioUseSSL "MINIO_USE_SSL".toList false
        ListenAddr := getValue flags.listenAddr "LISTEN_ADDR".toList ":8080".toList
        ScrapeInterval :=
          getDurationValue flags.scrapeInterval "SCRAPE_INTERVAL".toList (15 * 1000000000)
        MetricsPath := getValue flags.metricsPath "METRICS_PATH".toList "/minio/metrics/v3".toList
        BucketPattern := getValue flags.bucketPattern "BUCKET_PATTERN".toList "*".toList
        BucketExcludePattern :=
          getValue flags.bucketExcludePattern "BUCKET_EXCLUDE_PATTERN".toList "".toList
        DefaultScrapeConfig :=
          { JobName := []
            StaticConfigs := []
            MetricsPath := "/minio/metrics/v3".toList
            ScrapeInterval := "15s".toList
            ScrapeTimeout := "10s".toList
            Scheme := "http".toList
            RelabelConfigs := [] } }
    if config.MinIOUseSSL then
      some { config with
        DefaultScrapeConfig := { config.DefaultScrapeConfig with Scheme := "https".toList } }
    else some config

/-! ## The wildcard language and the filter of the specification -/

/-- The wildcard language of the specification as a relation: the pattern
matches the name when the name can be cut into one piece per pattern character,
any piece at all for a `*`, any single character for a `?`, and the character
itself for every other pattern character. -/
inductive GlobMatches : GoString → GoString → Prop where
  | done : GlobMatches [] []
  | star (skipped pattern name whole : GoString) :
    whole = skipped ++ name → GlobMatches pattern name → GlobMatches ('*' :: pattern) whole
  | quest (c : Char) (pattern name : GoString) :
    GlobMatches pattern name → GlobMatches ('?' :: pattern) (c :: name)
  | char (c : Char) (pattern name : GoString) :
    c ≠ '*' → c ≠ '?' → GlobMatches pattern name → GlobMatches (c :: pattern) (c :: name)

/-- Whether `k` holds of the text or of what is left of it after dropping some
of its leading characters, each of which satisfies `wild`. -/
def anySuffixBy (wild : Char → Bool) (k : GoString → Bool) : GoString → Bool
  | [] => k []
  | c :: name => k (c :: name) || (wild c && anySuffixBy wild k name)

/-- Wildcard matching in which `*` and `?` stand for the characters that
satisfy `wild` only. -/
def globMatchBy (wild : Char → Bool) : GoString → GoString → Bool
  | [], name => name.isEmpty
  | p :: pattern, name =>
    if p = '*' then anySuffixBy wild (globMatchBy wild pattern) name
    else
      match name with
      | [] => false
      | c :: name => (if p = '?' then wild c else decide (p = c)) && globMatchBy wild pattern name

/-- The specification's reading of a wildcard pattern: `*` stands for zero or
more of any character, `?` for exactly one of any character, every other
character for itself, and the whole name has to be used up. -/
def globMatch (pattern name : GoString) : Bool :=
  globMatchBy (fun _ => true) pattern name

/-- The characters of the patterns of the glob claim: letters, digits, `-`, `_`
and the two wildcards. -/
def isGlobChar (c : Char) : Bool :=
  regexp.isalnum c || c = '-' || c = '_' || c = '*' || c = '?'

/-- The characters `regexp.QuoteMeta` would escape: those with a meaning of
their own in a regular expression. -/
def isRegexMeta (c : Char) : Bool :=
  c ∈ "\\.+*?()|[]{}^$".toList

/-- The filter of the specification: a bucket is kept when its name matches the
include pattern and the exclude pattern is empty or does not match it. -/
def keepBucket {ε : Type} (MatchString : Matcher ε) (includePattern excludePattern : GoString)
    (bucket : minio.BucketInfo) : Bool :=
  matchPattern MatchString bucket.Name includePattern &&
    (decide (excludePattern = "".toList) || !matchPattern MatchString bucket.Name excludePattern)

/-- The pattern is malformed for the engine: `matchPattern` hands its regular
expression to the engine (it is neither `*` nor empty) and the engine refuses
to compile it, whatever the text. -/
def Malformed {ε : Type} (MatchString : Matcher ε) (pattern : GoString) : Prop :=
  pattern ≠ "*".toList ∧ pattern ≠ "".toList ∧
    ∀ s, ∃ err, MatchString (regexPattern pattern) s = .error err

/-! ## The regular expression of a pattern, character by character -/

/-- The runes `matchPattern` puts into the regular expression for one pattern
character: `.*` for `*`, `.` for `?`, the character itself otherwise. -/
def globRunes (c : Char) : GoString :=
  if c = '*' then ".*".toList else if c = '?' then ".".toList else [c]

/-- The syntax tree of one pattern character whose runes are `globRunes`. -/
def globItem (c : Char) : regexp.Regexp :=
  if c = '*' then .star .anyCharNotNL else if c = '?' then .anyCharNotNL else .literal c

/-- The positions at which a match of the concatenation of `res` that starts at
`p` can end. -/
def runSeq : List regexp.Regexp → regexp.Pos → List regexp.Pos
  | [], p => [p]
  | re :: res, p => (re.run p).flatMap (runSeq res)

/-! ## Example data -/

/-- The configuration `loadConfig` gives without flags and with an empty
environment. -/
def defaultConfig : Config :=
  { MinIOEndpoint := "localhost:9000".toList
    MinIOAccessKey := "minioadmin".toList
    MinIOSecretKey := "minioadmin".toList
    MinIOUseSSL := false
    ListenAddr := ":8080".toList
    ScrapeInterval := 15 * 1000000000
    MetricsPath := "/minio/metrics/v3".toList
    BucketPattern := "*".toList
    BucketExcludePattern := "".toList
    DefaultScrapeConfig :=
      { JobName := []
        StaticConfigs := []
        MetricsPath := "/minio/metrics/v3".toList
        ScrapeInterval := "15s".toList
        ScrapeTimeout := "10s".toList
        Scheme := "http".toList
        RelabelConfigs := [] } }

/-- A client with the default configuration except for the two bucket
patterns, in front of a server that always lists `buckets`. -/
def clientWith (includePattern excludePattern : GoString) (buckets : List minio.BucketInfo) :
    MinIOClient :=
  { client := fun _ => .ok buckets
    config :=
      { defaultConfig with
        BucketPattern := includePattern
        BucketExcludePattern := excludePattern } }

/-- A bucket of the given name, created on 2024-01-02 at 03:04:05 UTC. -/
def bucketNamed (name : String) : minio.BucketInfo :=
  { Name := name.toList, CreationDate := ⟨2024, 1, 2, 3, 4, 5, 0⟩ }


/-! ## The environment and the error chain -/

namespace os

/-- The function `os.Getenv` over the environment `environ` of the process: the
value of the variable, or `""` when the variable is not set. -/
def Getenv (environ : GoString → Option GoString) (key : GoString) : GoString :=
  match environ key with
  | some value => value
  | none => "".toList

end os

/-- The function `errors.Unwrap`: the error wrapped by `%w`, if any. -/
def GoError.Unwrap : GoError → Option GoError
  | .New _ => none
  | .Wrap _ err => some err

/-- The environment in which `key` is set to `value` and nothing else is set
(what `t.Setenv(key, value)` gives on an otherwise empty environment). -/
def environWith (key value : String) : GoString → Option GoString :=
  fun k => if k = key.toList then some value.toList else none

/-- A client with the default configuration whose `n`-th listing is
`answers n`. -/
def clientAnswering (answers : Nat → Except GoError (List minio.BucketInfo)) : MinIOClient :=
  { client := answers, config := defaultConfig }
/-! # Theorems -/

theorem matchPattern_star {ε : Type} (MatchString : Matcher ε) (str : GoString) :
    matchPattern MatchString str "*".toList = true := by
  simp [matchPattern]

theorem matchPattern_empty {ε : Type} (MatchString : Matcher ε) (str : GoString) :
    matchPattern MatchString str "".toList = true := by
  simp [matchPattern]

theorem matchPattern_of_error {ε : Type} (MatchString : Matcher ε) (str pattern : GoString)
    (err : ε) (hstar : pattern ≠ "*".toList) (hempty : pattern ≠ "".toList)
    (h : MatchString (regexPattern pattern) str = .error err) :
    matchPattern MatchString str pattern = false := by
  unfold matchPattern
  rw [if_neg (fun h1 => h1.elim hstar hempty), h]

theorem matchPattern_of_malformed {ε : Type} (MatchString : Matcher ε) (pattern : GoString)
    (h : Malformed MatchString pattern) (str : GoString) :
    matchPattern MatchString str pattern = false := by
  obtain ⟨hstar, hempty, herr⟩ := h
  obtain ⟨err, herr⟩ := herr str
  exact matchPattern_of_error MatchString str pattern err hstar hempty herr

theorem filterLoop_eq_filter {ε : Type} (MatchString : Matcher ε) (m : MinIOClient)
    (buckets : List minio.BucketInfo) :
    filterLoop MatchString m buckets =
      buckets.filter
        (keepBucket MatchString m.config.BucketPattern m.config.BucketExcludePattern) := by
  induction buckets with
  | nil => rfl
  | cons bucket buckets ih =>
    simp only [filterLoop, List.filter_cons, keepBucket, ih]
    by_cases hinc : matchPattern MatchString bucket.Name m.config.BucketPattern = true
    · by_cases hne : m.config.BucketExcludePattern = "".toList
      · simp [hinc, hne]
      · by_cases hexc :
            matchPattern MatchString bucket.Name m.config.BucketExcludePattern = true
        · simp [hinc, hne, hexc]
        · simp [hinc, hne, hexc]
    · simp [hinc]

theorem keepBucket_fast_path {ε : Type} (MatchString : Matcher ε) (bucket : minio.BucketInfo) :
    keepBucket MatchString "*".toList "".toList bucket = true := by
  simp [keepBucket, matchPattern]

theorem filterBuckets_eq_filter {ε : Type} (MatchString : Matcher ε) (m : MinIOClient)
    (buckets : List minio.BucketInfo) :
    m.filterBuckets MatchString buckets =
      buckets.filter
        (keepBucket MatchString m.config.BucketPattern m.config.BucketExcludePattern) := by
  unfold MinIOClient.filterBuckets
  split
  · next h =>
    rw [h.1, h.2]
    symm
    rw [List.filter_eq_self]
    intro bucket _
    exact keepBucket_fast_path MatchString bucket
  · exact filterLoop_eq_filter MatchString m buckets

theorem replaceFrom_single (c : Char) (new s : GoString) :
    strings.replaceFrom [c] new 0 s = s.flatMap (fun x => if x = c then new else [x]) := by
  induction s with
  | nil => rfl
  | cons x t ih =>
    simp only [strings.replaceFrom, List.isPrefixOf, List.length_singleton, Nat.sub_self,
      List.flatMap_cons, ih]
    by_cases h : x = c
    · subst h
      simp
    · have h2 : ¬ c = x := fun e => h e.symm
      simp [h, h2]

theorem ReplaceAll_single (c : Char) (new s : GoString) :
    strings.ReplaceAll s [c] new = s.flatMap (fun x => if x = c then new else [x]) := by
  simp only [strings.ReplaceAll]
  exact replaceFrom_single c new s

theorem flatMap_star_quest (pattern : GoString) :
    (pattern.flatMap (fun x => if x = '*' then ['.', '*'] else [x])).flatMap
        (fun x => if x = '?' then ['.'] else [x]) =
      pattern.flatMap globRunes := by
  induction pattern with
  | nil => rfl
  | cons x t ih =>
    simp only [List.flatMap_cons, List.flatMap_append, ih]
    congr 1
    unfold globRunes
    by_cases hx : x = '*'
    · subst hx
      decide
    · by_cases hq : x = '?'
      · subst hq
        decide
      · have h5 : ".*".toList = ['.', '*'] := rfl
        have h6 : ".".toList = ['.'] := rfl
        simp [hx, hq]

theorem regexPattern_eq (pattern : GoString) :
    regexPattern pattern = '^' :: (pattern.flatMap globRunes ++ ['$']) := by
  have h1 : "^".toList = ['^'] := rfl
  have h2 : "$".toList = ['$'] := rfl
  have h3 : "*".toList = ['*'] := rfl
  have h4 : "?".toList = ['?'] := rfl
  have h5 : ".*".toList = ['.', '*'] := rfl
  have h6 : ".".toList = ['.'] := rfl
  unfold regexPattern
  rw [h1, h2, h3, h4, h5, h6, ReplaceAll_single, ReplaceAll_single]
  simp only [List.singleton_append, List.flatMap_cons, List.flatMap_append, List.flatMap_nil,
    List.append_nil]
  have e1 : (if '^' = '?' then ['.'] else ['^']) = ['^'] := by decide
  have e2 : (if '$' = '?' then ['.'] else ['$']) = ['$'] := by decide
  rw [e1, e2, List.singleton_append, flatMap_star_quest]
  rfl

/-- The pattern characters the translation handles as a wildcard language:
the two wildcards and every character without a meaning in a regular
expression. -/
theorem isRegexMeta_false_iff (c : Char) :
    isRegexMeta c = false ↔
      c ≠ '\\' ∧ c ≠ '.' ∧ c ≠ '+' ∧ c ≠ '*' ∧ c ≠ '?' ∧ c ≠ '(' ∧ c ≠ ')' ∧ c ≠ '|' ∧
        c ≠ '[' ∧ c ≠ ']' ∧ c ≠ '{' ∧ c ≠ '}' ∧ c ≠ '^' ∧ c ≠ '$' := by
  have h : "\\.+*?()|[]{}^$".toList =
      ['\\', '.', '+', '*', '?', '(', ')', '|', '[', ']', '{', '}', '^', '$'] := rfl
  unfold isRegexMeta
  rw [h]
  simp

theorem parseStep_literal (stack : List regexp.Regexp) (lastRepeat : Bool) (c : Char)
    (rest : GoString) (hc : isRegexMeta c = false) :
    regexp.parseStep stack lastRepeat c rest = .ok (.literal c :: stack, false, rest) := by
  obtain ⟨h1, h2, h3, h4, h5, h6, h7, h8, h9, _, h11, _, h13, h14⟩ :=
    (isRegexMeta_false_iff c).1 hc
  simp [regexp.parseStep, h1, h2, h3, h4, h5, h6, h7, h8, h9, h11, h13, h14]

theorem parseStep_dot (stack : List regexp.Regexp) (lastRepeat : Bool) (rest : GoString) :
    regexp.parseStep stack lastRepeat '.' rest = .ok (.anyCharNotNL :: stack, false, rest) := by
  simp [regexp.parseStep]

theorem parseStep_begin (stack : List regexp.Regexp) (lastRepeat : Bool) (rest : GoString) :
    regexp.parseStep stack lastRepeat '^' rest = .ok (.beginText :: stack, false, rest) := by
  simp [regexp.parseStep]

theorem parseStep_end (stack : List regexp.Regexp) (lastRepeat : Bool) (rest : GoString) :
    regexp.parseStep stack lastRepeat '$' rest = .ok (.endText :: stack, false, rest) := by
  simp [regexp.parseStep]

theorem parseStep_star_dot (stack : List regexp.Regexp) (rest : GoString)
    (hrest : rest.head? ≠ some '?') :
    regexp.parseStep (.anyCharNotNL :: stack) false '*' rest =
      .ok (.star .anyCharNotNL :: stack, true, rest) := by
  cases rest with
  | nil =>
    simp [regexp.parseStep, regexp.applyRepeat, regexp.Regexp.isPseudo, regexp.RepeatOp.apply]
  | cons d r =>
    have hd : d ≠ '?' := by
      intro e
      apply hrest
      simp [e]
    simp [regexp.parseStep, regexp.applyRepeat, regexp.Regexp.isPseudo, regexp.RepeatOp.apply, hd]

theorem parseLoop_step (fuel : Nat) (stack stack2 : List regexp.Regexp) (lastRepeat lr2 : Bool)
    (c : Char) (rest t : GoString)
    (h : regexp.parseStep stack lastRepeat c rest = .ok (stack2, lr2, t)) :
    regexp.parseLoop (fuel + 1) stack lastRepeat (c :: rest) = regexp.parseLoop fuel stack2 lr2 t := by
  simp only [regexp.parseLoop, h]

theorem head?_globRunes_append (pattern rest : GoString) (hrest : rest.head? ≠ some '?') :
    (pattern.flatMap globRunes ++ rest).head? ≠ some '?' := by
  cases pattern with
  | nil => simpa using hrest
  | cons d q =>
    have h5 : ".*".toList = ['.', '*'] := rfl
    have h6 : ".".toList = ['.'] := rfl
    simp only [List.flatMap_cons, globRunes, h5, h6]
    by_cases hx : d = '*'
    · simp [hx]
    · by_cases hq : d = '?'
      · simp [hq]
      · simp [hx, hq]

theorem parseLoop_globRunes (pattern : GoString)
    (hok : ∀ c ∈ pattern, c = '*' ∨ c = '?' ∨ isRegexMeta c = false) :
    ∀ (stack : List regexp.Regexp) (lastRepeat : Bool) (rest : GoString) (k : Nat),
      rest.head? ≠ some '?' →
      ∃ lr, regexp.parseLoop ((pattern.flatMap globRunes).length + k) stack lastRepeat
          (pattern.flatMap globRunes ++ rest) =
        regexp.parseLoop k ((pattern.map globItem).reverse ++ stack) lr rest := by
  induction pattern with
  | nil =>
    intro stack lastRepeat rest k _
    exact ⟨lastRepeat, by simp⟩
  | cons c p ih =>
    intro stack lastRepeat rest k hrest
    have hok2 : ∀ d ∈ p, d = '*' ∨ d = '?' ∨ isRegexMeta d = false :=
      fun d hd => hok d (List.mem_cons_of_mem c hd)
    have hhead := head?_globRunes_append p rest hrest
    have h5 : ".*".toList = ['.', '*'] := rfl
    have h6 : ".".toList = ['.'] := rfl
    rcases hok c (List.mem_cons_self c p) with hc | hc | hc
    · subst hc
      obtain ⟨lr, hlr⟩ := ih hok2 (.star .anyCharNotNL :: stack) true rest k hrest
      refine ⟨lr, ?_⟩
      have e1 : (('*' :: p).flatMap globRunes).length + k =
          ((p.flatMap globRunes).length + k + 1) + 1 := by
        simp [globRunes, h5]
        omega
      have e2 : ('*' :: p).flatMap globRunes ++ rest =
          '.' :: '*' :: (p.flatMap globRunes ++ rest) := by
        simp [globRunes, h5]
      rw [e1, e2, parseLoop_step _ _ _ _ _ _ _ _ (parseStep_dot stack lastRepeat _),
        parseLoop_step _ _ _ _ _ _ _ _ (parseStep_star_dot stack _ hhead), hlr]
      simp [globItem]
    · subst hc
      obtain ⟨lr, hlr⟩ := ih hok2 (.anyCharNotNL :: stack) false rest k hrest
      refine ⟨lr, ?_⟩
      have e1 : (('?' :: p).flatMap globRunes).length + k =
          ((p.flatMap globRunes).length + k) + 1 := by
        simp [globRunes, h6]
        omega
      have e2 : ('?' :: p).flatMap globRunes ++ rest =
          '.' :: (p.flatMap globRunes ++ rest) := by
        simp [globRunes, h6]
      rw [e1, e2, parseLoop_step _ _ _ _ _ _ _ _ (parseStep_dot stack lastRepeat _), hlr]
      simp [globItem]
    · obtain ⟨_, _, _, hx, hq, _⟩ := (isRegexMeta_false_iff c).1 hc
      obtain ⟨lr, hlr⟩ := ih hok2 (.literal c :: stack) false rest k hrest
      refine ⟨lr, ?_⟩
      have e1 : ((c :: p).flatMap globRunes).length + k =
          ((p.flatMap globRunes).length + k) + 1 := by
        simp [globRunes, hx, hq]
        omega
      have e2 : (c :: p).flatMap globRunes ++ rest =
          c :: (p.flatMap globRunes ++ rest) := by
        simp [globRunes, hx, hq]
      rw [e1, e2, parseLoop_step _ _ _ _ _ _ _ _ (parseStep_literal stack lastRepeat c _ hc), hlr]
      simp [globItem, hx, hq]

theorem popOperands_of_no_pseudo (stack : List regexp.Regexp)
    (h : ∀ re ∈ stack, re.isPseudo = false) (acc : List regexp.Regexp) :
    regexp.popOperands acc stack = (stack.reverse ++ acc, []) := by
  induction stack generalizing acc with
  | nil => rfl
  | cons re stack ih =>
    have h1 : re.isPseudo = false := h re (List.mem_cons_self re stack)
    have h2 : ∀ r ∈ stack, r.isPseudo = false := fun r hr => h r (List.mem_cons_of_mem re hr)
    simp [regexp.popOperands, h1, ih h2]

theorem collapseConcat_cons (re : regexp.Regexp) (subs : List regexp.Regexp) (h : subs ≠ []) :
    regexp.collapseConcat (re :: subs) = .concat re (regexp.collapseConcat subs) := by
  cases subs with
  | nil => exact absurd rfl h
  | cons a l => rfl

theorem globItem_isPseudo (c : Char) : (globItem c).isPseudo = false := by
  unfold globItem
  split
  · rfl
  · split <;> rfl

theorem closeGroup_of_no_pseudo (re : regexp.Regexp) (subs : List regexp.Regexp)
    (hsubs : subs ≠ []) (h : ∀ r ∈ re :: subs, r.isPseudo = false) :
    regexp.closeGroup (re :: subs).reverse = [regexp.collapseConcat (re :: subs)] := by
  have hrev : ∀ r ∈ (re :: subs).reverse, r.isPseudo = false :=
    fun r hr => h r (List.mem_reverse.1 hr)
  have hc : regexp.concat (re :: subs).reverse = [regexp.collapseConcat (re :: subs)] := by
    simp only [regexp.concat, popOperands_of_no_pseudo _ hrev, List.reverse_reverse,
      List.append_nil]
  rw [regexp.closeGroup, hc, collapseConcat_cons re subs hsubs]
  rfl

theorem Parse_regexPattern (pattern : GoString)
    (hok : ∀ c ∈ pattern, c = '*' ∨ c = '?' ∨ isRegexMeta c = false) :
    regexp.Parse (regexPattern pattern) =
      .ok (regexp.collapseConcat (.beginText :: (pattern.map globItem ++ [.endText]))) := by
  obtain ⟨lr, hlr⟩ := parseLoop_globRunes pattern hok [.beginText] false ['$'] 1 (by simp)
  have hlen : (regexPattern pattern).length = ((pattern.flatMap globRunes).length + 1) + 1 := by
    simp [regexPattern_eq]
  have hloop : regexp.parseLoop (regexPattern pattern).length [] false (regexPattern pattern) =
      .ok ((regexp.Regexp.beginText :: (pattern.map globItem ++ [.endText])).reverse) := by
    rw [hlen, regexPattern_eq, parseLoop_step _ _ _ _ _ _ _ _ (parseStep_begin [] false _), hlr,
      parseLoop_step _ _ _ _ _ _ _ _ (parseStep_end _ lr [])]
    simp [regexp.parseLoop]
  have hps : ∀ r ∈ regexp.Regexp.beginText :: (pattern.map globItem ++ [.endText]),
      r.isPseudo = false := by
    intro r hr
    simp only [List.mem_cons, List.mem_append, List.mem_map, List.mem_singleton,
      List.not_mem_nil, or_false] at hr
    rcases hr with hr | ⟨c, _, hr⟩ | hr
    · subst hr
      rfl
    · subst hr
      exact globItem_isPseudo c
    · subst hr
      rfl
  unfold regexp.Parse
  rw [hloop]
  simp only [closeGroup_of_no_pseudo _ _ (by simp) hps]

theorem run_collapseConcat (res : List regexp.Regexp) (p : regexp.Pos) :
    (regexp.collapseConcat res).run p = runSeq res p := by
  induction res generalizing p with
  | nil => rfl
  | cons re res ih =>
    cases res with
    | nil =>
      show re.run p = (re.run p).flatMap (fun q => [q])
      simp
    | cons a l =>
      show (re.run p).flatMap (regexp.collapseConcat (a :: l)).run = _
      have : (regexp.collapseConcat (a :: l)).run = runSeq (a :: l) := funext ih
      rw [this]
      rfl

theorem isEmpty_flatMap {α β : Type} (l : List α) (f : α → List β) :
    (l.flatMap f).isEmpty = l.all (fun x => (f x).isEmpty) := by
  induction l with
  | nil => rfl
  | cons a l ih =>
    simp only [List.flatMap_cons, List.all_cons, ← ih]
    cases f a <;> simp

theorem isEmpty_append {α : Type} (l₁ l₂ : List α) :
    (l₁ ++ l₂).isEmpty = (l₁.isEmpty && l₂.isEmpty) := by
  cases l₁ <;> simp

theorem search_false_of_anchored (re : regexp.Regexp)
    (h : ∀ t, re.run ⟨false, t⟩ = []) (s : GoString) : re.search false s = false := by
  induction s with
  | nil => simp [regexp.Regexp.search, h]
  | cons c s ih => simp [regexp.Regexp.search, h, ih]

theorem search_of_anchored (re : regexp.Regexp)
    (h : ∀ t, re.run ⟨false, t⟩ = []) (s : GoString) :
    re.search true s = !(re.run ⟨true, s⟩).isEmpty := by
  cases s with
  | nil => rfl
  | cons c s => simp [regexp.Regexp.search, search_false_of_anchored re h s]

theorem starLoop_anyCharNotNL (g : regexp.Pos → List regexp.Pos) (K : GoString → Bool)
    (hK : ∀ b t, (!(g ⟨b, t⟩).isEmpty) = K t) :
    ∀ (s : GoString) (n : Nat) (b : Bool), s.length ≤ n →
      (!((regexp.starLoop regexp.Regexp.anyCharNotNL.run n ⟨b, s⟩).flatMap g).isEmpty) =
        anySuffixBy (fun d => decide (d ≠ Char.ofNat 10)) K s := by
  intro s
  induction s with
  | nil =>
    intro n b _
    cases n with
    | zero => simp [regexp.starLoop, anySuffixBy, ← hK b []]
    | succ n =>
      simp [regexp.starLoop, anySuffixBy, ← hK b [], regexp.Regexp.run, regexp.stepRune]
  | cons c s ih =>
    intro n b hn
    cases n with
    | zero => simp at hn
    | succ n =>
      have hn2 : s.length ≤ n := by simpa using hn
      have ih2 := ih n false hn2
      have e : regexp.starLoop regexp.Regexp.anyCharNotNL.run (n + 1) ⟨b, c :: s⟩ =
          ⟨b, c :: s⟩ :: ((regexp.Regexp.anyCharNotNL.run ⟨b, c :: s⟩).filter
            (fun q => decide (q.rest.length < (c :: s).length))).flatMap
              (regexp.starLoop regexp.Regexp.anyCharNotNL.run n) := rfl
      rw [e, List.flatMap_cons, isEmpty_append, Bool.not_and, hK]
      show (K (c :: s) || _) = (K (c :: s) || _)
      congr 1
      by_cases hc : c = Char.ofNat 10
      · have hrun : regexp.Regexp.anyCharNotNL.run ⟨b, c :: s⟩ = [] := by
          simp [regexp.Regexp.run, regexp.stepRune, hc]
        rw [hrun]
        simp [hc]
      · have hrun : regexp.Regexp.anyCharNotNL.run ⟨b, c :: s⟩ = [⟨false, s⟩] := by
          simp [regexp.Regexp.run, regexp.stepRune, hc]
        rw [hrun, List.filter_cons_of_pos (by simp), List.filter_nil, List.flatMap_cons,
          List.flatMap_nil, List.append_nil, ih2]
        simp [hc]

theorem runSeq_globItems (pattern : GoString)
    (hok : ∀ c ∈ pattern, c = '*' ∨ c = '?' ∨ isRegexMeta c = false) :
    ∀ (b : Bool) (s : GoString),
      (!(runSeq (pattern.map globItem ++ [.endText]) ⟨b, s⟩).isEmpty) =
        globMatchBy (fun d => decide (d ≠ Char.ofNat 10)) pattern s := by
  induction pattern with
  | nil =>
    intro b s
    cases s <;> simp [runSeq, regexp.Regexp.run, globMatchBy]
  | cons c p ih =>
    have ih2 := ih (fun d hd => hok d (List.mem_cons_of_mem c hd))
    intro b s
    have hseq : runSeq ((c :: p).map globItem ++ [.endText]) ⟨b, s⟩ =
        ((globItem c).run ⟨b, s⟩).flatMap (runSeq (p.map globItem ++ [.endText])) := rfl
    rw [hseq]
    rcases hok c (List.mem_cons_self c p) with hc | hc | hc
    · subst hc
      have hitem : globItem '*' = .star .anyCharNotNL := by decide
      have hrun : (regexp.Regexp.star .anyCharNotNL).run ⟨b, s⟩ =
          regexp.starLoop regexp.Regexp.anyCharNotNL.run s.length ⟨b, s⟩ := rfl
      rw [hitem, hrun, starLoop_anyCharNotNL _ _ ih2 s s.length b (Nat.le_refl _)]
      simp [globMatchBy]
    · subst hc
      have hitem : globItem '?' = .anyCharNotNL := by decide
      rw [hitem]
      cases s with
      | nil => simp [regexp.Regexp.run, regexp.stepRune, globMatchBy]
      | cons d t =>
        by_cases hd : d = Char.ofNat 10
        · simp [regexp.Regexp.run, regexp.stepRune, globMatchBy, hd]
        · have hrun : regexp.Regexp.anyCharNotNL.run ⟨b, d :: t⟩ = [⟨false, t⟩] := by
            simp [regexp.Regexp.run, regexp.stepRune, hd]
          rw [hrun, List.flatMap_cons, List.flatMap_nil, List.append_nil, ih2]
          simp [globMatchBy, hd]
    · obtain ⟨_, _, _, hx, hq, _⟩ := (isRegexMeta_false_iff c).1 hc
      have hitem : globItem c = .literal c := by simp [globItem, hx, hq]
      rw [hitem]
      cases s with
      | nil => simp [regexp.Regexp.run, regexp.stepRune, globMatchBy, hx]
      | cons d t =>
        by_cases hd : d = c
        · have hrun : (regexp.Regexp.literal c).run ⟨b, d :: t⟩ = [⟨false, t⟩] := by
            simp [regexp.Regexp.run, regexp.stepRune, hd]
          rw [hrun, List.flatMap_cons, List.flatMap_nil, List.append_nil, ih2]
          simp [globMatchBy, hx, hq, hd]
        · have hrun : (regexp.Regexp.literal c).run ⟨b, d :: t⟩ = [] := by
            simp [regexp.Regexp.run, regexp.stepRune, hd]
          have hd2 : ¬ c = d := fun e => hd e.symm
          rw [hrun]
          simp [globMatchBy, hx, hq, hd2]

/-- On a pattern made of wildcards and characters without a meaning in a
regular expression, Go's engine computes the wildcard match in which `*` and
`?` stand for every character but the line feed. -/
theorem MatchString_regexPattern (pattern name : GoString)
    (hok : ∀ c ∈ pattern, c = '*' ∨ c = '?' ∨ isRegexMeta c = false) :
    regexp.MatchString (regexPattern pattern) name =
      .ok (globMatchBy (fun d => decide (d ≠ Char.ofNat 10)) pattern name) := by
  have hanch : ∀ t, (regexp.collapseConcat
      (.beginText :: (pattern.map globItem ++ [.endText]))).run ⟨false, t⟩ = [] := by
    intro t
    rw [run_collapseConcat]
    rfl
  unfold regexp.MatchString regexp.Compile
  rw [Parse_regexPattern pattern hok]
  simp only [regexp.Regexp.MatchString]
  rw [search_of_anchored _ hanch, run_collapseConcat]
  have hseq : runSeq (.beginText :: (pattern.map globItem ++ [.endText])) ⟨true, name⟩ =
      runSeq (pattern.map globItem ++ [.endText]) ⟨true, name⟩ := by
    simp [runSeq, regexp.Regexp.run]
  rw [hseq, runSeq_globItems pattern hok]

theorem anySuffixBy_of_all (wild : Char → Bool) (K K2 : GoString → Bool) (name : GoString)
    (hK : ∀ t, (∀ c ∈ t, wild c = true) → K t = K2 t) (hname : ∀ c ∈ name, wild c = true) :
    anySuffixBy wild K name = anySuffixBy (fun _ => true) K2 name := by
  induction name with
  | nil => simp [anySuffixBy, hK [] (by simp)]
  | cons c t ih =>
    have ht : ∀ d ∈ t, wild d = true := fun d hd => hname d (List.mem_cons_of_mem c hd)
    simp [anySuffixBy, hK (c :: t) hname, hname c (List.mem_cons_self c t), ih ht]

theorem globMatchBy_of_all (wild : Char → Bool) (pattern : GoString) :
    ∀ name : GoString, (∀ c ∈ name, wild c = true) →
      globMatchBy wild pattern name = globMatch pattern name := by
  unfold globMatch
  induction pattern with
  | nil =>
    intro name _
    rfl
  | cons p pattern ih =>
    intro name hname
    by_cases hp : p = '*'
    · simp only [globMatchBy, hp, if_true]
      exact anySuffixBy_of_all wild _ _ name ih hname
    · cases name with
      | nil => simp [globMatchBy, hp]
      | cons c t =>
        have ht : ∀ d ∈ t, wild d = true := fun d hd => hname d (List.mem_cons_of_mem c hd)
        simp [globMatchBy, hp, ih t ht, hname c (List.mem_cons_self c t)]

theorem isGlobChar_cases (c : Char) (h : isGlobChar c = true) :
    c = '*' ∨ c = '?' ∨ isRegexMeta c = false := by
  by_cases hx : c = '*'
  · exact Or.inl hx
  · by_cases hq : c = '?'
    · exact Or.inr (Or.inl hq)
    · refine Or.inr (Or.inr ?_)
      rw [isRegexMeta_false_iff]
      refine ⟨?_, ?_, ?_, hx, hq, ?_, ?_, ?_, ?_, ?_, ?_, ?_, ?_, ?_⟩ <;>
      · intro e
        subst e
        revert h
        decide

theorem compile_regexPattern_star :
    regexp.Compile (regexPattern "*".toList) =
      .ok (.concat .beginText (.concat (.star .anyCharNotNL) .endText)) := by
  rfl

theorem compile_regexPattern_empty :
    regexp.Compile (regexPattern "".toList) = .ok (.concat .beginText .endText) := by
  rfl

/-- For Go's engine a pattern whose regular expression does not compile is
malformed: the two patterns that are not compiled would compile. -/
theorem malformed_of_compile_error (pattern : GoString) (err : regexp.Error)
    (h : regexp.Compile (regexPattern pattern) = .error err) :
    Malformed regexp.MatchString pattern := by
  refine ⟨?_, ?_, ?_⟩
  · intro e
    rw [e, compile_regexPattern_star] at h
    cases h
  · intro e
    rw [e, compile_regexPattern_empty] at h
    cases h
  · intro s
    exact ⟨err, by simp [regexp.MatchString, h]⟩

theorem anySuffixBy_true_iff (K : GoString → Bool) (name : GoString) :
    anySuffixBy (fun _ => true) K name = true ↔
      ∃ skipped rest, name = skipped ++ rest ∧ K rest = true := by
  induction name with
  | nil =>
    constructor
    · intro h
      exact ⟨[], [], rfl, h⟩
    · rintro ⟨skipped, rest, he, hk⟩
      have hrest : rest = [] := (List.append_eq_nil.1 he.symm).2
      subst hrest
      exact hk
  | cons c t ih =>
    simp only [anySuffixBy, Bool.true_and, Bool.or_eq_true, ih]
    constructor
    · rintro (h | ⟨skipped, rest, he, hk⟩)
      · exact ⟨[], c :: t, rfl, h⟩
      · exact ⟨c :: skipped, rest, by rw [he]; rfl, hk⟩
    · rintro ⟨skipped, rest, he, hk⟩
      cases skipped with
      | nil =>
        left
        rw [he]
        exact hk
      | cons d skipped =>
        right
        injection he with _ he2
        exact ⟨skipped, rest, he2, hk⟩

/-- The executable wildcard matcher decides the relation `GlobMatches`. -/
theorem globMatch_iff (pattern : GoString) :
    ∀ name, globMatch pattern name = true ↔ GlobMatches pattern name := by
  unfold globMatch
  induction pattern with
  | nil =>
    intro name
    constructor
    · intro h
      cases name with
      | nil => exact GlobMatches.done
      | cons c t => simp [globMatchBy] at h
    · intro h
      cases h
      rfl
  | cons p pattern ih =>
    intro name
    by_cases hp : p = '*'
    · subst hp
      simp only [globMatchBy, if_true, anySuffixBy_true_iff]
      constructor
      · rintro ⟨skipped, rest, he, hk⟩
        exact GlobMatches.star skipped pattern rest name he ((ih rest).1 hk)
      · intro h
        cases h with
        | star skipped _ rest _ he hrest => exact ⟨skipped, rest, he, (ih rest).2 hrest⟩
        | char c _ rest h1 _ _ => exact absurd rfl h1
    · cases name with
      | nil =>
        simp only [globMatchBy, hp, if_false]
        constructor
        · intro h
          cases h
        · intro h
          cases h with
          | star skipped _ rest _ _ _ => exact absurd rfl hp
      | cons c t =>
        by_cases hq : p = '?'
        · subst hq
          simp only [globMatchBy, hp, if_false, if_true, Bool.true_and]
          constructor
          · intro h
            exact GlobMatches.quest c pattern t ((ih t).1 h)
          · intro h
            cases h with
            | quest _ _ _ hrest => exact (ih t).2 hrest
            | char _ _ _ _ h2 _ => exact absurd rfl h2
        · simp only [globMatchBy, hp, hq, if_false, Bool.and_eq_true, decide_eq_true_eq]
          constructor
          · rintro ⟨he, h⟩
            subst he
            exact GlobMatches.char p pattern t hp hq ((ih t).1 h)
          · intro h
            cases h with
            | star skipped _ rest _ _ _ => exact absurd rfl hp
            | quest _ _ _ _ => exact absurd rfl hq
            | char _ _ _ _ _ hrest => exact ⟨rfl, (ih t).2 hrest⟩

theorem globMatchBy_literal (wild : Char → Bool) (pattern : GoString)
    (hplain : ∀ c ∈ pattern, c ≠ '*' ∧ c ≠ '?') :
    ∀ name, globMatchBy wild pattern name = decide (name = pattern) := by
  induction pattern with
  | nil =>
    intro name
    cases name <;> simp [globMatchBy]
  | cons p pattern ih =>
    intro name
    obtain ⟨hx, hq⟩ := hplain p (List.mem_cons_self p pattern)
    have ih2 := ih (fun c hc => hplain c (List.mem_cons_of_mem p hc))
    cases name with
    | nil => simp [globMatchBy, hx]
    | cons c t =>
      by_cases hpc : p = c
      · subst hpc
        simp [globMatchBy, hx, hq, ih2 t]
      · have hcp : ¬ c = p := fun e => hpc e.symm
        simp [globMatchBy, hx, hq, hpc, hcp]

/-- A non-empty pattern without wildcards and without characters that have a
meaning in a regular expression matches its own text and nothing else. -/
theorem matchPattern_literal (name pattern : GoString) (hempty : pattern ≠ "".toList)
    (hplain : ∀ c ∈ pattern, isRegexMeta c = false) :
    matchPattern regexp.MatchString name pattern = decide (name = pattern) := by
  have hcs : ∀ c ∈ pattern, c ≠ '*' ∧ c ≠ '?' := by
    intro c hc
    obtain ⟨_, _, _, hx, hq, _⟩ := (isRegexMeta_false_iff c).1 (hplain c hc)
    exact ⟨hx, hq⟩
  have hstar : pattern ≠ "*".toList := by
    intro e
    exact (hcs '*' (by rw [e]; decide)).1 rfl
  unfold matchPattern
  rw [if_neg (fun h => h.elim hstar hempty),
    MatchString_regexPattern pattern name (fun c hc => Or.inr (Or.inr (hplain c hc)))]
  exact globMatchBy_literal _ pattern hcs name

/-- Without flags and with an empty environment `loadConfig` gives the default
configuration. -/
theorem loadConfig_unset (ParseDuration : GoString → Except GoError Int) :
    loadConfig ParseDuration Flags.unset (fun _ => "".toList) = some defaultConfig := by
  rfl

theorem parseEscape_length (t t2 : GoString) (c : Char)
    (h : regexp.parseEscape t = .ok (c, t2)) : t2.length < t.length := by
  unfold regexp.parseEscape at h
  cases t with
  | nil => simp at h
  | cons d r =>
    simp only at h
    repeat' split at h
    all_goals first
      | (injection h with h; injection h with _ h; subst h; simp)
      | cases h

theorem parseClassChar_length (t t2 : GoString) (c : Char)
    (h : regexp.parseClassChar t = .ok (c, t2)) : t2.length < t.length := by
  unfold regexp.parseClassChar at h
  cases t with
  | nil => simp at h
  | cons d r =>
    simp only at h
    split at h
    · have := parseEscape_length r t2 c h
      simp only [List.length_cons]
      omega
    · injection h with h
      injection h with _ h
      subst h
      simp

theorem parseClassItems_length :
    ∀ (fuel : Nat) (first : Bool) (cls cls2 : List (Char × Char)) (t t2 : GoString),
      regexp.parseClassItems fuel first cls t = .ok (cls2, t2) → t2.length < t.length := by
  intro fuel
  induction fuel with
  | zero =>
    intro first cls cls2 t t2 h
    simp [regexp.parseClassItems] at h
  | succ fuel ih =>
    intro first cls cls2 t t2 h
    unfold regexp.parseClassItems at h
    split at h
    · injection h with h
      injection h with _ h
      subst h
      simp
    · split at h
      · cases h
      · cases h
      · cases h
      · split at h
        · cases h
        · split at h
          · cases h
          · next lo t3 hlo =>
            have h3 := parseClassChar_length _ _ _ hlo
            split at h
            · next c rest =>
              split at h
              · have := ih _ _ _ _ _ h
                omega
              · split at h
                · cases h
                · next hi t4 hhi =>
                  have h4 := parseClassChar_length _ _ _ hhi
                  split at h
                  · cases h
                  · have := ih _ _ _ _ _ h
                    simp only [List.length_cons] at h4 h3 ⊢
                    simp only [List.length_cons] at this
                    omega
            · have := ih _ _ _ _ _ h
              omega

theorem parseClass_length (t t2 : GoString) (re : regexp.Regexp)
    (h : regexp.parseClass t = .ok (re, t2)) : t2.length < t.length + 1 := by
  unfold regexp.parseClass at h
  split at h
  next negated t3 heq =>
  have h3 : t3.length ≤ t.length := by
    split at heq
    · injection heq with _ heq
      subst heq
      simp
    · injection heq with _ heq
      subst heq
      exact Nat.le_refl _
  split at h
  · cases h
  · next cls rest hitems =>
    have h4 := parseClassItems_length _ _ _ _ _ _ hitems
    injection h with h
    injection h with _ h
    subst h
    omega

theorem applyRepeat_length (op : regexp.RepeatOp) (stack stack2 : List regexp.Regexp)
    (lastRepeat : Bool) (after t : GoString)
    (h : regexp.applyRepeat op stack lastRepeat after = .ok (stack2, t)) :
    t.length ≤ after.length := by
  unfold regexp.applyRepeat at h
  simp only at h
  split at h
  · cases h
  · split at h
    · cases h
    · split at h
      · cases h
      · injection h with h
        injection h with _ h
        subst h
        cases after with
        | nil => simp
        | cons c rest =>
          simp only
          split
          · simp
          · exact Nat.le_refl _

/-- A round of the parser never lengthens the input that remains. -/
theorem parseStep_length (stack stack2 : List regexp.Regexp) (lastRepeat lr2 : Bool) (c : Char)
    (rest t : GoString)
    (h : regexp.parseStep stack lastRepeat c rest = .ok (stack2, lr2, t)) :
    t.length ≤ rest.length := by
  unfold regexp.parseStep at h
  by_cases h1 : c = '('
  · rw [if_pos h1] at h
    split at h
    · cases h
    · injection h with h
      injection h with _ h
      injection h with _ h
      subst h
      exact Nat.le_refl _
  rw [if_neg h1] at h
  by_cases h2 : c = '|'
  · rw [if_pos h2] at h
    injection h with h
    injection h with _ h
    injection h with _ h
    subst h
    exact Nat.le_refl _
  rw [if_neg h2] at h
  by_cases h3 : c = ')'
  · rw [if_pos h3] at h
    split at h
    · cases h
    · injection h with h
      injection h with _ h
      injection h with _ h
      subst h
      exact Nat.le_refl _
  rw [if_neg h3] at h
  by_cases h4 : c = '^'
  · rw [if_pos h4] at h
    injection h with h
    injection h with _ h
    injection h with _ h
    subst h
    exact Nat.le_refl _
  rw [if_neg h4] at h
  by_cases h5 : c = '$'
  · rw [if_pos h5] at h
    injection h with h
    injection h with _ h
    injection h with _ h
    subst h
    exact Nat.le_refl _
  rw [if_neg h5] at h
  by_cases h6 : c = '.'
  · rw [if_pos h6] at h
    injection h with h
    injection h with _ h
    injection h with _ h
    subst h
    exact Nat.le_refl _
  rw [if_neg h6] at h
  by_cases h7 : c = '['
  · rw [if_pos h7] at h
    split at h
    · cases h
    · next re rest2 hclass =>
      have := parseClass_length _ _ _ hclass
      injection h with h
      injection h with _ h
      injection h with _ h
      subst h
      omega
  rw [if_neg h7] at h
  by_cases h8 : c = '*' ∨ c = '+' ∨ c = '?'
  · rw [if_pos h8] at h
    simp only at h
    split at h
    · cases h
    · next st after hrep =>
      have := applyRepeat_length _ _ _ _ _ _ hrep
      injection h with h
      injection h with _ h
      injection h with _ h
      subst h
      exact this
  rw [if_neg h8] at h
  by_cases h9 : c = '{'
  · rw [if_pos h9] at h
    split at h
    · injection h with h
      injection h with _ h
      injection h with _ h
      subst h
      exact Nat.le_refl _
    · split at h
      · cases h
      · injection h with h
        injection h with _ h
        injection h with _ h
        subst h
        exact Nat.le_refl _
  rw [if_neg h9] at h
  by_cases h10 : c = '\\'
  · rw [if_pos h10] at h
    split at h
    · cases h
    · next d rest2 =>
      repeat' split at h
      all_goals
        cases h <;> first
          | exact Nat.le_of_lt (parseEscape_length _ _ _ (by assumption))
          | simp
  rw [if_neg h10] at h
  injection h with h
  injection h with _ h
  injection h with _ h
  subst h
  exact Nat.le_refl _

/-- The parser never runs out of fuel: any fuel that covers the length of the
input gives the same result. -/
theorem parseLoop_fuel :
    ∀ (fuel fuel2 : Nat) (stack : List regexp.Regexp) (lastRepeat : Bool) (t : GoString),
      t.length ≤ fuel → t.length ≤ fuel2 →
      regexp.parseLoop fuel stack lastRepeat t = regexp.parseLoop fuel2 stack lastRepeat t := by
  intro fuel
  induction fuel with
  | zero =>
    intro fuel2 stack lastRepeat t h1 _
    have ht : t = [] := List.length_eq_zero.1 (Nat.le_zero.1 h1)
    subst ht
    cases fuel2 <;> rfl
  | succ fuel ih =>
    intro fuel2 stack lastRepeat t h1 h2
    cases t with
    | nil => cases fuel2 <;> rfl
    | cons c rest =>
      cases fuel2 with
      | zero => simp at h2
      | succ fuel2 =>
        simp only [regexp.parseLoop]
        split
        · rfl
        · next st lr t2 hstep =>
          have hlen := parseStep_length _ _ _ _ _ _ _ hstep
          simp only [List.length_cons] at h1 h2
          exact ih fuel2 st lr t2 (by omega) (by omega)

/-! ## The claims -/

/-- C1: `filterBuckets` keeps a bucket exactly when `matchPattern` accepts its
name for the include pattern and the exclude pattern is empty or `matchPattern`
rejects the name for it: the output is the input filtered by that test, so a
bucket is in the output exactly when it is in the input and passes the test,
and a bucket whose name matches a non-empty exclude pattern is never in the
output, whatever the include pattern. -/
theorem filterBuckets_keeps_exactly {ε : Type} (MatchString : Matcher ε) (m : MinIOClient)
    (buckets : List minio.BucketInfo) :
    m.filterBuckets MatchString buckets =
        buckets.filter
          (keepBucket MatchString m.config.BucketPattern m.config.BucketExcludePattern) ∧
      (∀ bucket, bucket ∈ m.filterBuckets MatchString buckets ↔
        bucket ∈ buckets ∧ matchPattern MatchString bucket.Name m.config.BucketPattern = true ∧
          (m.config.BucketExcludePattern = "".toList ∨
            matchPattern MatchString bucket.Name m.config.BucketExcludePattern = false)) ∧
      (∀ bucket, m.config.BucketExcludePattern ≠ "".toList →
        matchPattern MatchString bucket.Name m.config.BucketExcludePattern = true →
        bucket ∉ m.filterBuckets MatchString buckets) := by
  have hmem : ∀ bucket, bucket ∈ m.filterBuckets MatchString buckets ↔
      bucket ∈ buckets ∧ matchPattern MatchString bucket.Name m.config.BucketPattern = true ∧
        (m.config.BucketExcludePattern = "".toList ∨
          matchPattern MatchString bucket.Name m.config.BucketExcludePattern = false) := by
    intro bucket
    rw [filterBuckets_eq_filter, List.mem_filter]
    simp [keepBucket]
  refine ⟨filterBuckets_eq_filter MatchString m buckets, hmem, ?_⟩
  intro bucket hne hexc hin
  rcases ((hmem bucket).1 hin).2.2 with h | h
  · exact hne h
  · rw [hexc] at h
    cases h

/-- Witness of C1: with include `*` and exclude `prod-*` the bucket `prod-logs`,
which matches both, is not in the output. -/
theorem filterBuckets_keeps_exactly_witness :
    "prod-*".toList ≠ "".toList ∧
      matchPattern regexp.MatchString "prod-logs".toList "*".toList = true ∧
      matchPattern regexp.MatchString "prod-logs".toList "prod-*".toList = true ∧
      bucketNamed "prod-logs" ∉
        (clientWith "*".toList "prod-*".toList []).filterBuckets regexp.MatchString
          [bucketNamed "prod-logs", bucketNamed "dev-logs"] :=
  ⟨by decide, by decide, by decide,
    (filterBuckets_keeps_exactly regexp.MatchString (clientWith "*".toList "prod-*".toList [])
      [bucketNamed "prod-logs", bucketNamed "dev-logs"]).2.2 (bucketNamed "prod-logs")
      (by decide) (by decide)⟩

/-- C2 (as stated, refuted): the name `a`, line feed, `b` matches the wildcard
pattern `a?b`, in which `?` stands for exactly one of any character, but
`matchPattern` rejects it, because `.` in a Go regular expression does not
match a line feed. -/
theorem matchPattern_glob_counterexample :
    (∀ c ∈ "a?b".toList, isGlobChar c = true) ∧
      GlobMatches "a?b".toList ['a', Char.ofNat 10, 'b'] ∧
      matchPattern regexp.MatchString ['a', Char.ofNat 10, 'b'] "a?b".toList = false :=
  ⟨by decide, (globMatch_iff _ _).1 (by decide), by decide⟩

/-- C2 (amended): for every name without a line feed and every pattern other
than the empty one and `*` that is built from letters, digits, `-`, `_`, `*` and
`?` only, `matchPattern` is true exactly when the whole name matches the
wildcard pattern, `*` standing for zero or more of any character and `?` for
exactly one of any character; its value is the one the executable wildcard
matcher `globMatch` computes. -/
theorem matchPattern_glob (name pattern : GoString)
    (hempty : pattern ≠ "".toList) (hstar : pattern ≠ "*".toList)
    (hpattern : ∀ c ∈ pattern, isGlobChar c = true)
    (hname : Char.ofNat 10 ∉ name) :
    (matchPattern regexp.MatchString name pattern = true ↔ GlobMatches pattern name) ∧
      matchPattern regexp.MatchString name pattern = globMatch pattern name := by
  have hok : ∀ c ∈ pattern, c = '*' ∨ c = '?' ∨ isRegexMeta c = false :=
    fun c hc => isGlobChar_cases c (hpattern c hc)
  have hwild : ∀ c ∈ name, (fun d => decide (d ≠ Char.ofNat 10)) c = true := by
    intro c hc
    have : c ≠ Char.ofNat 10 := fun e => hname (e ▸ hc)
    simpa using this
  have heq : matchPattern regexp.MatchString name pattern = globMatch pattern name := by
    unfold matchPattern
    rw [if_neg (fun h => h.elim hstar hempty), MatchString_regexPattern pattern name hok]
    exact globMatchBy_of_all _ pattern name hwild
  exact ⟨by rw [heq]; exact globMatch_iff pattern name, heq⟩

/-- Witness of C2 (amended): the four examples of the claim. -/
theorem matchPattern_glob_witness :
    matchPattern regexp.MatchString "prod-logs".toList "prod-*".toList = true ∧
      matchPattern regexp.MatchString "a1b".toList "a?b".toList = true ∧
      matchPattern regexp.MatchString "dev-logs".toList "prod-*".toList = false ∧
      matchPattern regexp.MatchString "ab".toList "a?b".toList = false :=
  ⟨(matchPattern_glob "prod-logs".toList "prod-*".toList
      (by decide) (by decide) (by decide) (by decide)).2.trans (by decide),
    (matchPattern_glob "a1b".toList "a?b".toList
      (by decide) (by decide) (by decide) (by decide)).2.trans (by decide),
    (matchPattern_glob "dev-logs".toList "prod-*".toList
      (by decide) (by decide) (by decide) (by decide)).2.trans (by decide),
    (matchPattern_glob "ab".toList "a?b".toList
      (by decide) (by decide) (by decide) (by decide)).2.trans (by decide)⟩

/-- C3 (the code at the failing inputs): the patterns `a.b` and `(` have no
wildcard; `matchPattern` accepts the name `axb` for `a.b`, though it is not the
pattern, and rejects the name `(` for the pattern `(`, though it is the
pattern: the characters are handed to the regular-expression engine unescaped. -/
theorem matchPattern_meta_not_literal :
    ('*' ∉ "a.b".toList ∧ '?' ∉ "a.b".toList ∧ "axb".toList ≠ "a.b".toList ∧
      matchPattern regexp.MatchString "axb".toList "a.b".toList = true) ∧
    ('*' ∉ "(".toList ∧ '?' ∉ "(".toList ∧
      matchPattern regexp.MatchString "(".toList "(".toList = false) := by
  decide

/-- C4: `matchPattern` is true of every name for the pattern `*` and for the
empty pattern, whatever the engine. -/
theorem matchPattern_star_and_empty {ε : Type} (MatchString : Matcher ε) (name : GoString) :
    matchPattern MatchString name "*".toList = true ∧
      matchPattern MatchString name "".toList = true := by
  constructor
  · unfold matchPattern
    rw [if_pos (Or.inl rfl)]
  · unfold matchPattern
    rw [if_pos (Or.inr rfl)]

/-- C5: `matchPattern` is a total Boolean function, and for a malformed pattern,
one whose regular expression the engine refuses to compile, it is false of every
name. -/
theorem matchPattern_malformed {ε : Type} (MatchString : Matcher ε) (pattern : GoString)
    (h : Malformed MatchString pattern) (name : GoString) :
    matchPattern MatchString name pattern = false := by
  obtain ⟨hstar, hempty, herr⟩ := h
  obtain ⟨err, herr⟩ := herr name
  unfold matchPattern
  rw [if_neg (fun h1 => h1.elim hstar hempty), herr]

/-- Witness of C5: the regular expressions of the patterns `(` and `[a` do not
compile in Go, and `matchPattern` is false of every name for them. -/
theorem matchPattern_malformed_witness :
    (regexp.Compile (regexPattern "(".toList) = .error .missingParen ∧
      Malformed regexp.MatchString "(".toList ∧
      ∀ name, matchPattern regexp.MatchString name "(".toList = false) ∧
    (regexp.Compile (regexPattern "[a".toList) = .error .missingBracket ∧
      Malformed regexp.MatchString "[a".toList ∧
      ∀ name, matchPattern regexp.MatchString name "[a".toList = false) :=
  ⟨⟨rfl, malformed_of_compile_error _ _ rfl,
      matchPattern_malformed regexp.MatchString "(".toList (malformed_of_compile_error _ _ rfl)⟩,
    ⟨rfl, malformed_of_compile_error _ _ rfl,
      matchPattern_malformed regexp.MatchString "[a".toList (malformed_of_compile_error _ _ rfl)⟩⟩

/-- C6 (as stated, refuted): the exclude pattern `(` is malformed, and with the
include pattern `*` the bucket `prod-logs` is kept, not dropped: the error makes
`matchPattern` false, and a false exclude test keeps the bucket. -/
theorem filterBuckets_malformed_counterexample :
    Malformed regexp.MatchString "(".toList ∧
      (clientWith "*".toList "(".toList []).filterBuckets regexp.MatchString
        [bucketNamed "prod-logs"] = [bucketNamed "prod-logs"] :=
  ⟨malformed_of_compile_error _ _ rfl, by decide⟩

/-- C6 (amended): a malformed include pattern makes `filterBuckets` keep no
bucket; a malformed exclude pattern excludes no bucket, `filterBuckets` then
keeps exactly the buckets whose name matches the include pattern. -/
theorem filterBuckets_malformed {ε : Type} (MatchString : Matcher ε) (m : MinIOClient)
    (buckets : List minio.BucketInfo) :
    (Malformed MatchString m.config.BucketPattern →
        m.filterBuckets MatchString buckets = []) ∧
      (Malformed MatchString m.config.BucketExcludePattern →
        m.filterBuckets MatchString buckets =
          buckets.filter
            (fun bucket => matchPattern MatchString bucket.Name m.config.BucketPattern)) := by
  constructor
  · intro h
    rw [filterBuckets_eq_filter, List.filter_eq_nil_iff]
    intro bucket _
    simp [keepBucket, matchPattern_of_malformed MatchString _ h bucket.Name]
  · intro h
    rw [filterBuckets_eq_filter]
    congr 1
    funext bucket
    simp [keepBucket, matchPattern_of_malformed MatchString _ h bucket.Name]

/-- Witness of C6 (amended): with the malformed include pattern `(` nothing is
kept; with the malformed exclude pattern `(` and the include pattern `prod-*`
exactly the buckets matching `prod-*` are kept. -/
theorem filterBuckets_malformed_witness :
    (clientWith "(".toList "".toList []).filterBuckets regexp.MatchString
        [bucketNamed "prod-logs", bucketNamed "dev-logs"] = [] ∧
      (clientWith "prod-*".toList "(".toList []).filterBuckets regexp.MatchString
        [bucketNamed "prod-logs", bucketNamed "dev-logs"] = [bucketNamed "prod-logs"] :=
  ⟨(filterBuckets_malformed regexp.MatchString (clientWith "(".toList "".toList [])
      [bucketNamed "prod-logs", bucketNamed "dev-logs"]).1 (malformed_of_compile_error _ _ rfl),
    ((filterBuckets_malformed regexp.MatchString (clientWith "prod-*".toList "(".toList [])
      [bucketNamed "prod-logs", bucketNamed "dev-logs"]).2
        (malformed_of_compile_error _ _ rfl)).trans (by decide)⟩

/-- C7: the output of `filterBuckets` is a sublist of its input (the kept
buckets in their order, nothing added, altered or duplicated), and the empty
list is filtered to the empty list. -/
theorem filterBuckets_sublist {ε : Type} (MatchString : Matcher ε) (m : MinIOClient)
    (buckets : List minio.BucketInfo) :
    (m.filterBuckets MatchString buckets).Sublist buckets ∧
      m.filterBuckets MatchString [] = [] := by
  constructor
  · rw [filterBuckets_eq_filter]
    exact List.filter_sublist buckets
  · rw [filterBuckets_eq_filter]
    rfl

/-- C8: with the include pattern `*` and the empty exclude pattern,
`filterBuckets` returns its input unchanged, and so does the filtering loop it
skips. -/
theorem filterBuckets_fast_path {ε : Type} (MatchString : Matcher ε) (m : MinIOClient)
    (buckets : List minio.BucketInfo)
    (hinclude : m.config.BucketPattern = "*".toList)
    (hexclude : m.config.BucketExcludePattern = "".toList) :
    m.filterBuckets MatchString buckets = buckets ∧
      filterLoop MatchString m buckets = buckets ∧
      m.filterBuckets MatchString buckets = filterLoop MatchString m buckets := by
  have hloop : filterLoop MatchString m buckets = buckets := by
    rw [filterLoop_eq_filter, hinclude, hexclude, List.filter_eq_self]
    intro bucket _
    exact keepBucket_fast_path MatchString bucket
  have hfast : m.filterBuckets MatchString buckets = buckets := by
    unfold MinIOClient.filterBuckets
    rw [if_pos ⟨hinclude, hexclude⟩]
  exact ⟨hfast, hloop, hfast.trans hloop.symm⟩

/-- Witness of C8: the default patterns on two buckets. -/
theorem filterBuckets_fast_path_witness :
    (clientWith "*".toList "".toList []).filterBuckets regexp.MatchString
        [bucketNamed "prod-logs", bucketNamed "dev-logs"] =
      [bucketNamed "prod-logs", bucketNamed "dev-logs"] ∧
    filterLoop regexp.MatchString (clientWith "*".toList "".toList [])
        [bucketNamed "prod-logs", bucketNamed "dev-logs"] =
      [bucketNamed "prod-logs", bucketNamed "dev-logs"] :=
  ⟨(filterBuckets_fast_path regexp.MatchString (clientWith "*".toList "".toList [])
      [bucketNamed "prod-logs", bucketNamed "dev-logs"] rfl rfl).1,
    (filterBuckets_fast_path regexp.MatchString (clientWith "*".toList "".toList [])
      [bucketNamed "prod-logs", bucketNamed "dev-logs"] rfl rfl).2.1⟩

/-- The two scrape configurations `GenerateScrapeConfigs` returns for a
non-empty listing. -/
theorem generateScrapeConfigs_of_listed (m : MinIOClient) (n : Nat)
    (listed : List minio.BucketInfo) (hfirst : m.client n = .ok listed) (hlisted : listed ≠ []) :
    m.GenerateScrapeConfigs n = (.ok [m.serverConfig, m.bucketConfig], n + 1) := by
  have hlen : listed.length > 0 := List.length_pos.2 hlisted
  simp only [MinIOClient.GenerateScrapeConfigs, MinIOClient.ListBuckets, hfirst]
  rw [if_pos hlen]
  rfl

theorem forall₂_map_left {α β : Type} (R : β → α → Prop) (f : α → β) (l : List α)
    (h : ∀ a, R (f a) a) : List.Forall₂ R (l.map f) l := by
  induction l with
  | nil => exact List.Forall₂.nil
  | cons a l ih => exact List.Forall₂.cons (h a) ih

/-- C9: when the listing made by `GenerateScrapeConfigs` gives at least one
bucket and the listing made for the bucket job gives `buckets`, the answer to a
request for the job `minio-buckets` is a `200` whose entries correspond one to
one, in order, to the buckets `filterBuckets` keeps; the targets of an entry are
the configured endpoint alone, and its labels give the job `minio-buckets`, the
endpoint as instance, the scheme (`https` when SSL is enabled, else `http`), the
name of the bucket and its creation time in RFC 3339. -/
theorem handleServiceDiscovery_buckets {ε : Type} (MatchString : Matcher ε) (m : MinIOClient)
    (n : Nat) (listed buckets : List minio.BucketInfo)
    (hfirst : m.client n = .ok listed) (hlisted : listed ≠ [])
    (hsecond : m.client (n + 1) = .ok buckets) :
    ∃ entries, m.handleServiceDiscovery MatchString "minio-buckets".toList n =
        (.json entries, n + 2) ∧
      List.Forall₂
        (fun (entry : ServiceDiscoveryResponse) (bucket : minio.BucketInfo) =>
          entry.Targets = [m.config.MinIOEndpoint] ∧
          entry.Labels.lookup "job".toList = some "minio-buckets".toList ∧
          entry.Labels.lookup "instance".toList = some m.config.MinIOEndpoint ∧
          entry.Labels.lookup "__scheme__".toList =
            some (if m.config.MinIOUseSSL then "https".toList else "http".toList) ∧
          entry.Labels.lookup "sd_bucket".toList = some bucket.Name ∧
          entry.Labels.lookup "sd_bucket_creation".toList =
            some bucket.CreationDate.FormatRFC3339)
        entries (m.filterBuckets MatchString buckets) := by
  refine ⟨(m.filterBuckets MatchString buckets).map m.bucketTarget, ?_,
    forall₂_map_left _ _ _ ?_⟩
  · have hgen := generateScrapeConfigs_of_listed m n listed hfirst hlisted
    have hfind : [m.serverConfig, m.bucketConfig].find?
        (fun config => decide (config.JobName = "minio-buckets".toList)) =
        some m.bucketConfig := by
      rfl
    unfold MinIOClient.handleServiceDiscovery
    rw [if_neg (by decide), hgen]
    simp only [hfind, if_true, MinIOClient.ListBuckets, hsecond]
  · intro bucket
    exact ⟨rfl, rfl, rfl, rfl, rfl, rfl⟩

/-- Witness of C9: the scenario of the specification, three buckets filtered by
`prod-*`, gives two entries, for `prod-a` and `prod-c`. -/
theorem handleServiceDiscovery_buckets_witness :
    ∃ entries,
      (clientWith "prod-*".toList "".toList
        [bucketNamed "prod-a", bucketNamed "dev-b", bucketNamed "prod-c"]).handleServiceDiscovery
          regexp.MatchString "minio-buckets".toList 0 = (.json entries, 2) ∧
      entries.map (fun entry => entry.Labels.lookup "sd_bucket".toList) =
        [some "prod-a".toList, some "prod-c".toList] ∧
      entries.map (fun entry => entry.Labels.lookup "sd_bucket_creation".toList) =
        [some "2024-01-02T03:04:05Z".toList, some "2024-01-02T03:04:05Z".toList] := by
  obtain ⟨entries, h, _⟩ := handleServiceDiscovery_buckets regexp.MatchString
    (clientWith "prod-*".toList "".toList
      [bucketNamed "prod-a", bucketNamed "dev-b", bucketNamed "prod-c"]) 0
    [bucketNamed "prod-a", bucketNamed "dev-b", bucketNamed "prod-c"]
    [bucketNamed "prod-a", bucketNamed "dev-b", bucketNamed "prod-c"] rfl (by decide) rfl
  refine ⟨entries, h, ?_⟩
  have h2 : (clientWith "prod-*".toList "".toList
      [bucketNamed "prod-a", bucketNamed "dev-b", bucketNamed "prod-c"]).handleServiceDiscovery
        regexp.MatchString "minio-buckets".toList 0 =
      (.json ((([bucketNamed "prod-a", bucketNamed "prod-c"]).map
        (clientWith "prod-*".toList "".toList
          [bucketNamed "prod-a", bucketNamed "dev-b", bucketNamed "prod-c"]).bucketTarget)), 2) := by
    decide
  rw [h2] at h
  injection h with h3 _
  injection h3 with h4
  subst h4
  decide

/-- C10 (the code at the failing input): with the flag
`-metrics-path=/custom/metrics` the configured metrics path is
`/custom/metrics`, and the entry of the bucket `logs` still carries the
metrics-path label `/minio/metrics/v3/bucket/api/logs`, not
`/custom/metrics/bucket/api/logs`. -/
theorem handleServiceDiscovery_metrics_path_fixed :
    ∃ config entry,
      loadConfig (fun _ => .error (.New [])) { Flags.unset with metricsPath := "/custom/metrics".toList }
        (fun _ => []) = some config ∧
      config.MetricsPath = "/custom/metrics".toList ∧
      MinIOClient.handleServiceDiscovery regexp.MatchString
        { client := fun _ => .ok [bucketNamed "logs"], config := config }
        "minio-buckets".toList 0 = (.json [entry], 2) ∧
      entry.Labels.lookup "__metrics_path__".toList =
        some "/minio/metrics/v3/bucket/api/logs".toList ∧
      entry.Labels.lookup "__metrics_path__".toList ≠
        some (config.MetricsPath ++ "/bucket/api/".toList ++ "logs".toList) :=
  ⟨_, _, rfl, rfl, rfl, by decide, by decide⟩

theorem generateScrapeConfigs_of_empty (m : MinIOClient) (n : Nat)
    (hlist : m.client n = .ok []) :
    m.GenerateScrapeConfigs n = (.ok [m.serverConfig], n + 1) := by
  simp only [MinIOClient.GenerateScrapeConfigs, MinIOClient.ListBuckets, hlist]
  rfl

theorem generateScrapeConfigs_of_error (m : MinIOClient) (n : Nat) (err : GoError)
    (hlist : m.client n = .error err) :
    m.GenerateScrapeConfigs n =
      (.error (.Wrap "failed to list buckets: ".toList err), n + 1) := by
  simp only [MinIOClient.GenerateScrapeConfigs, MinIOClient.ListBuckets, hlist]

theorem generateScrapeConfigs_of_ok (m : MinIOClient) (n : Nat)
    (buckets : List minio.BucketInfo) (hlist : m.client n = .ok buckets) :
    m.GenerateScrapeConfigs n =
      (.ok (m.serverConfig :: if buckets = [] then [] else [m.bucketConfig]), n + 1) := by
  cases buckets with
  | nil => exact generateScrapeConfigs_of_empty m n hlist
  | cons bucket rest =>
    rw [generateScrapeConfigs_of_listed m n (bucket :: rest) hlist (by simp)]
    rfl

/-- C11: whenever the listing succeeds, `GenerateScrapeConfigs` succeeds and its
first configuration is the server-level one: job name `minio-server`, exactly
one static configuration, whose only target is the endpoint and whose labels
give the job `minio-server` and the endpoint as instance.  The configurations
after it are the bucket-level one when the listing is non-empty and none
otherwise, so a configuration of the job `minio-buckets` is present exactly when
the listing is non-empty; and the result is the same whatever the include and
exclude patterns of the configuration are. -/
theorem GenerateScrapeConfigs_server_entry (m : MinIOClient) (n : Nat)
    (buckets : List minio.BucketInfo) (hlist : m.client n = .ok buckets) :
    ∃ serverConfig rest,
      m.GenerateScrapeConfigs n = (.ok (serverConfig :: rest), n + 1) ∧
      serverConfig.JobName = "minio-server".toList ∧
      (∃ staticConfig, serverConfig.StaticConfigs = [staticConfig] ∧
        staticConfig.Targets = [m.config.MinIOEndpoint] ∧
        staticConfig.Labels.lookup "job".toList = some "minio-server".toList ∧
        staticConfig.Labels.lookup "instance".toList = some m.config.MinIOEndpoint) ∧
      (rest = if buckets = [] then [] else [m.bucketConfig]) ∧
      ((∃ config ∈ serverConfig :: rest, config.JobName = "minio-buckets".toList) ↔
        buckets ≠ []) ∧
      (∀ includePattern excludePattern : GoString,
        MinIOClient.GenerateScrapeConfigs
          { m with config := { m.config with
              BucketPattern := includePattern
              BucketExcludePattern := excludePattern } } n =
          m.GenerateScrapeConfigs n) := by
  refine ⟨m.serverConfig, if buckets = [] then [] else [m.bucketConfig],
    generateScrapeConfigs_of_ok m n buckets hlist, rfl, ⟨_, rfl, rfl, rfl, rfl⟩, rfl, ?_, ?_⟩
  · have hserver : m.serverConfig.JobName ≠ "minio-buckets".toList := by
      show "minio-server".toList ≠ "minio-buckets".toList
      decide
    cases buckets with
    | nil =>
      simp only [if_true, List.mem_singleton, ne_eq, not_true_eq_false, iff_false, not_exists,
        not_and]
      intro config hconfig
      rw [hconfig]
      exact hserver
    | cons bucket rest =>
      simp only [List.cons_ne_nil, if_false, ne_eq, not_false_eq_true, iff_true]
      exact ⟨m.bucketConfig, by simp, rfl⟩
  · intro includePattern excludePattern
    rfl

/-- Witness of C11: an empty listing gives the server configuration alone, a
listing of one bucket gives the server configuration and the bucket
configuration, also with the patterns `prod-*` and `tmp-*`. -/
theorem GenerateScrapeConfigs_server_entry_witness :
    (∃ serverConfig,
      (clientWith "prod-*".toList "tmp-*".toList []).GenerateScrapeConfigs 0 =
        (.ok [serverConfig], 1) ∧
      serverConfig.JobName = "minio-server".toList) ∧
    (∃ serverConfig bucketConfig,
      (clientWith "prod-*".toList "tmp-*".toList [bucketNamed "dev-b"]).GenerateScrapeConfigs 0 =
        (.ok [serverConfig, bucketConfig], 1) ∧
      serverConfig.JobName = "minio-server".toList ∧
      bucketConfig.JobName = "minio-buckets".toList) := by
  constructor
  · obtain ⟨serverConfig, rest, h, hjob, _, hrest, _⟩ :=
      GenerateScrapeConfigs_server_entry (clientWith "prod-*".toList "tmp-*".toList []) 0 [] rfl
    rw [if_pos rfl] at hrest
    subst hrest
    exact ⟨serverConfig, h, hjob⟩
  · obtain ⟨serverConfig, rest, h, hjob, _, hrest, _⟩ :=
      GenerateScrapeConfigs_server_entry
        (clientWith "prod-*".toList "tmp-*".toList [bucketNamed "dev-b"]) 0
        [bucketNamed "dev-b"] rfl
    rw [if_neg (by decide)] at hrest
    subst hrest
    exact ⟨serverConfig, _, h, hjob, rfl⟩

/-- C12: `GenerateScrapeConfigs` fails exactly when the listing fails, and with
the very error `ListBuckets` returned; that error is the failure of the MinIO
client wrapped (`%w`) behind the text `failed to list buckets: `, so the
client's failure is what `errors.Unwrap` gives back.  A success always carries
at least the server configuration and comes from a successful listing; a
successful listing of zero buckets is the success `[serverConfig]`.  In the
`/sd` handler a failure of either listing is answered by the
`Internal server error` (500) outcome, not by a list of targets. -/
theorem GenerateScrapeConfigs_listing_failure {ε : Type} (MatchString : Matcher ε)
    (m : MinIOClient) (n : Nat) :
    (∀ err, (m.GenerateScrapeConfigs n).1 = .error err ↔ (m.ListBuckets n).1 = .error err) ∧
      ((∃ err, (m.GenerateScrapeConfigs n).1 = .error err) ↔ ∃ err, m.client n = .error err) ∧
      (∀ err, m.client n = .error err →
        ∃ failure, (m.GenerateScrapeConfigs n).1 = .error failure ∧
          (m.ListBuckets n).1 = .error failure ∧
          failure.Unwrap = some err ∧
          failure.Error = "failed to list buckets: ".toList ++ err.Error) ∧
      (∀ configs, (m.GenerateScrapeConfigs n).1 = .ok configs →
        configs ≠ [] ∧ ∃ buckets, m.client n = .ok buckets) ∧
      (m.client n = .ok [] → (m.GenerateScrapeConfigs n).1 = .ok [m.serverConfig]) ∧
      (∀ jobName err, jobName ≠ "".toList → m.client n = .error err →
        (m.handleServiceDiscovery MatchString jobName n).1 =
          .httpError "Internal server error".toList 500) ∧
      (∀ listed err, m.client n = .ok listed → listed ≠ [] → m.client (n + 1) = .error err →
        (m.handleServiceDiscovery MatchString "minio-buckets".toList n).1 =
          .httpError "Internal server error".toList 500) := by
  refine ⟨?_, ?_, ?_, ?_, ?_, ?_, ?_⟩
  · intro err
    cases hlist : m.client n with
    | error e => simp [generateScrapeConfigs_of_error m n e hlist, MinIOClient.ListBuckets, hlist]
    | ok buckets =>
      simp [generateScrapeConfigs_of_ok m n buckets hlist, MinIOClient.ListBuckets, hlist]
  · cases hlist : m.client n with
    | error e => simp [generateScrapeConfigs_of_error m n e hlist]
    | ok buckets => simp [generateScrapeConfigs_of_ok m n buckets hlist]
  · intro err hlist
    refine ⟨.Wrap "failed to list buckets: ".toList err, ?_, ?_, rfl, rfl⟩
    · rw [generateScrapeConfigs_of_error m n err hlist]
    · simp only [MinIOClient.ListBuckets, hlist]
  · intro configs hconfigs
    cases hlist : m.client n with
    | error e =>
      rw [generateScrapeConfigs_of_error m n e hlist] at hconfigs
      cases hconfigs
    | ok buckets =>
      rw [generateScrapeConfigs_of_ok m n buckets hlist] at hconfigs
      injection hconfigs with hconfigs
      subst hconfigs
      exact ⟨List.cons_ne_nil _ _, buckets, rfl⟩
  · intro hlist
    rw [generateScrapeConfigs_of_empty m n hlist]
  · intro jobName err hjob hlist
    unfold MinIOClient.handleServiceDiscovery
    rw [if_neg hjob, generateScrapeConfigs_of_error m n err hlist]
  · intro listed err hfirst hlisted hsecond
    have hfind : [m.serverConfig, m.bucketConfig].find?
        (fun config => decide (config.JobName = "minio-buckets".toList)) =
        some m.bucketConfig := by
      rfl
    unfold MinIOClient.handleServiceDiscovery
    rw [if_neg (by decide), generateScrapeConfigs_of_listed m n listed hfirst hlisted]
    simp only [hfind, if_true, MinIOClient.ListBuckets, hsecond]

/-- Witness of C12: a server that refuses the connection makes
`GenerateScrapeConfigs` fail with the wrapped refusal, and a server without
buckets makes it succeed with the server configuration. -/
theorem GenerateScrapeConfigs_listing_failure_witness :
    (∃ failure,
      ((clientAnswering (fun _ => .error (.New "connection refused".toList))).GenerateScrapeConfigs
        0).1 = .error failure ∧
      failure.Unwrap = some (.New "connection refused".toList) ∧
      failure.Error = "failed to list buckets: connection refused".toList) ∧
    ((clientAnswering (fun _ => .ok [])).GenerateScrapeConfigs 0).1 =
      .ok [(clientAnswering (fun _ => .ok [])).serverConfig] := by
  constructor
  · obtain ⟨failure, h, _, hunwrap, herror⟩ :=
      (GenerateScrapeConfigs_listing_failure regexp.MatchString
        (clientAnswering (fun _ => .error (.New "connection refused".toList))) 0).2.2.1
        (.New "connection refused".toList) rfl
    exact ⟨failure, h, hunwrap, herror.trans (by decide)⟩
  · exact (GenerateScrapeConfigs_listing_failure regexp.MatchString
      (clientAnswering (fun _ => .ok [])) 0).2.2.2.2.1 rfl

/-- C13: `getEnvAsBool` returns the parsed value when the variable is set to a
non-empty string that `strconv.ParseBool` accepts, and the default when the
variable is not set, is empty, or is set to a string `strconv.ParseBool`
rejects. -/
theorem getEnvAsBool_parsed_or_default (environ : GoString → Option GoString)
    (key : GoString) (defaultValue : Bool) :
    (∀ value boolValue, environ key = some value → value ≠ "".toList →
        strconv.ParseBool value = .ok boolValue →
        getEnvAsBool (os.Getenv environ) key defaultValue = boolValue) ∧
      (environ key = none → getEnvAsBool (os.Getenv environ) key defaultValue = defaultValue) ∧
      (environ key = some "".toList →
        getEnvAsBool (os.Getenv environ) key defaultValue = defaultValue) ∧
      (∀ value err, environ key = some value → strconv.ParseBool value = .error err →
        getEnvAsBool (os.Getenv environ) key defaultValue = defaultValue) := by
  refine ⟨?_, ?_, ?_, ?_⟩
  · intro value boolValue hset hne hparse
    have hget : os.Getenv environ key = value := by simp only [os.Getenv, hset]
    unfold getEnvAsBool
    rw [hget, if_pos hne, hparse]
  · intro hunset
    have hget : os.Getenv environ key = "".toList := by simp only [os.Getenv, hunset]
    unfold getEnvAsBool
    rw [hget, if_neg (fun h => h rfl)]
  · intro hset
    have hget : os.Getenv environ key = "".toList := by simp only [os.Getenv, hset]
    unfold getEnvAsBool
    rw [hget, if_neg (fun h => h rfl)]
  · intro value err hset hparse
    have hget : os.Getenv environ key = value := by simp only [os.Getenv, hset]
    unfold getEnvAsBool
    rw [hget, hparse]
    split <;> rfl

/-- Witness of C13: the table of `TestGetEnvAsBool`: `true` with the default
`false` gives `true`, `false` with the default `true` gives `false`, `invalid`
with the default `true` gives `true`, and the unset variable with the default
`false` gives `false`. -/
theorem getEnvAsBool_parsed_or_default_witness :
    getEnvAsBool (os.Getenv (environWith "TEST_BOOL_VAR" "true")) "TEST_BOOL_VAR".toList false =
        true ∧
      getEnvAsBool (os.Getenv (environWith "TEST_BOOL_VAR" "false")) "TEST_BOOL_VAR".toList true =
        false ∧
      getEnvAsBool (os.Getenv (environWith "TEST_BOOL_VAR" "invalid")) "TEST_BOOL_VAR".toList true =
        true ∧
      getEnvAsBool (os.Getenv (fun _ => none)) "TEST_BOOL_VAR".toList false = false :=
  ⟨(getEnvAsBool_parsed_or_default (environWith "TEST_BOOL_VAR" "true")
      "TEST_BOOL_VAR".toList false).1 "true".toList true (by decide) (by decide) rfl,
    (getEnvAsBool_parsed_or_default (environWith "TEST_BOOL_VAR" "false")
      "TEST_BOOL_VAR".toList true).1 "false".toList false (by decide) (by decide) rfl,
    (getEnvAsBool_parsed_or_default (environWith "TEST_BOOL_VAR" "invalid")
      "TEST_BOOL_VAR".toList true).2.2.2 "invalid".toList _ (by decide) rfl,
    (getEnvAsBool_parsed_or_default (fun _ => none) "TEST_BOOL_VAR".toList false).2.1 rfl⟩

/-- C14: when the listing succeeds with zero buckets, `GenerateScrapeConfigs`
returns the server configuration alone, a request for the job `minio-buckets`
gets the `Job not found` (404) outcome, and a request for the job
`minio-server` gets a `200` with exactly one entry, whose target is the
endpoint and whose labels are those of the server configuration; each of the
two requests makes one listing.  A request with an empty job parameter gets the
`job parameter is required` (400) outcome for every server, and makes no
listing. -/
theorem handleServiceDiscovery_no_buckets {ε : Type} (MatchString : Matcher ε)
    (m : MinIOClient) (n : Nat) (hlist : m.client n = .ok []) :
    m.GenerateScrapeConfigs n = (.ok [m.serverConfig], n + 1) ∧
      m.handleServiceDiscovery MatchString "minio-buckets".toList n =
        (.httpError "Job not found".toList 404, n + 1) ∧
      (∃ entry, m.handleServiceDiscovery MatchString "minio-server".toList n =
          (.json [entry], n + 1) ∧
        entry.Targets = [m.config.MinIOEndpoint] ∧
        entry.Labels.lookup "job".toList = some "minio-server".toList ∧
        entry.Labels.lookup "instance".toList = some m.config.MinIOEndpoint) ∧
      (∀ server : MinIOClient,
        server.handleServiceDiscovery MatchString "".toList n =
          (.httpError "job parameter is required".toList 400, n)) := by
  have hgen := generateScrapeConfigs_of_empty m n hlist
  refine ⟨hgen, ?_, ?_, ?_⟩
  · have hfind : [m.serverConfig].find?
        (fun config => decide (config.JobName = "minio-buckets".toList)) = none := by
      rfl
    unfold MinIOClient.handleServiceDiscovery
    rw [if_neg (by decide), hgen]
    simp only [hfind]
  · have hfind : [m.serverConfig].find?
        (fun config => decide (config.JobName = "minio-server".toList)) =
        some m.serverConfig := by
      rfl
    refine ⟨{ Targets := [m.config.MinIOEndpoint]
              Labels := [
                ("__metrics_path__".toList, "/minio/metrics/v3".toList),
                ("__scheme__".toList, m.getScheme),
                ("instance".toList, m.config.MinIOEndpoint),
                ("job".toList, "minio-server".toList)] }, ?_, rfl, rfl, rfl⟩
    unfold MinIOClient.handleServiceDiscovery
    rw [if_neg (by decide), hgen]
    simp only [hfind]
    rw [if_neg (by decide)]
    rfl
  · intro server
    unfold MinIOClient.handleServiceDiscovery
    rw [if_pos rfl]

/-- Witness of C14: the default configuration in front of a server without
buckets. -/
theorem handleServiceDiscovery_no_buckets_witness :
    (clientWith "*".toList "".toList []).handleServiceDiscovery regexp.MatchString
        "minio-buckets".toList 0 = (.httpError "Job not found".toList 404, 1) ∧
      (∃ entry, (clientWith "*".toList "".toList []).handleServiceDiscovery regexp.MatchString
          "minio-server".toList 0 = (.json [entry], 1) ∧
        entry.Targets = ["localhost:9000".toList]) ∧
      (clientWith "*".toList "".toList []).handleServiceDiscovery regexp.MatchString
        "".toList 0 = (.httpError "job parameter is required".toList 400, 0) := by
  obtain ⟨_, hbuckets, ⟨entry, hserver, htargets, _⟩, hempty⟩ :=
    handleServiceDiscovery_no_buckets regexp.MatchString (clientWith "*".toList "".toList []) 0 rfl
  exact ⟨hbuckets, ⟨entry, hserver, htargets⟩, hempty _⟩
